import Mathlib

/-! # Log analyzer: a shallow embedding of `main.go`

The program reads a log (a named file or standard input) line by line, counts the lines that
mention `ERROR`, `WARNING` and `INFO`, prints a summary filtered by the configured level and
optionally writes the same summary to a report file.

Conventions of the embedding:

* a Go `string` is a Lean `String`; a raw byte sequence (the input stream, a scanner token)
  is a `List Char`, one `Char` standing for one byte;
* the package-level variables `logFilePath`, `logLevel`, `outputToFile`, `reportPath` are the
  fields of `Config`, passed explicitly;
* the effects of the run (standard output, standard error, files) are the fields of `World`,
  passed in and returned; what the operating system decides (whether a file can be opened or
  created, how a read ends) is `Env`;
* the counters are Go `int`s, modelled as unbounded `Int`: each is incremented at most once per
  input line, so reaching the 64-bit limit would need `2^63` lines of input;
* `bufio.Scanner` with its default split function `bufio.ScanLines` is modelled after the Go
  standard library: `dropCR`, `ScanLines` and `Scanner.Scan` below.  The scanner's buffer is
  abstracted to what it can hold: at most `maxTokenSize` bytes of not yet consumed input;
* the command line is taken as parsed: `Flags` says which flags were supplied and with what
  value; `cobra` fills the variables from them, calls `initConfig` and then the `Run` function
  of `analyzeCmd`, which is `mainProcess`;
* the loop `for scanner.Scan()` runs on fuel; `analyzeLog` and `analyzeStdin` supply
  `length of the input + 1` and return `none` if that were not enough, so every theorem that
  shows a result `some w` also shows that the loop has ended by itself.
-/

namespace LogAnalyzer

/-! ## Configuration, environment and world -/

/-- The package-level configuration variables of `main.go`. -/
structure Config where
  logFilePath : String
  logLevel : String
  outputToFile : Bool
  reportPath : String

/-- The package-level variable `defaultReport`. -/
def defaultReport : String := "default_report.txt"

/-- How an `io.Reader` ends once its bytes are used up: with `io.EOF`, or with another error. -/
inductive ReadEnd where
  | eof
  | ioError
  deriving DecidableEq, Repr

/-- An `io.Reader`: the bytes it delivers, and how it ends after them. -/
structure Reader where
  data : List Char
  ending : ReadEnd

/-- What the operating system decides during a run. -/
structure Env where
  /-- The stream behind `os.Stdin`. -/
  stdin : Reader
  /-- The text of the error of `os.Open path`, for a path that cannot be opened although the
  file exists. -/
  openError : String → Option String
  /-- The offset after which reading the file at a path fails, if it does. -/
  readFault : String → Option Nat
  /-- The text of the error of `os.Create path`, for a path that cannot be created. -/
  createError : String → Option String

/-- The observable state a run acts on. -/
structure World where
  stdout : String
  stderr : String
  /-- The content of each existing file. -/
  files : String → Option String

/-- The state before a run: nothing printed, the given files. -/
def World.init (files : String → Option String) : World :=
  { stdout := "", stderr := "", files := files }

/-- Writing a string to standard output (`fmt.Printf` with its arguments filled in). -/
def Printf (w : World) (s : String) : World :=
  { w with stdout := w.stdout ++ s }

/-- Writing a line to standard output: `fmt.Println`. -/
def Println (w : World) (s : String) : World :=
  Printf w (s ++ "\n")

/-- The verb `%d` applied to an `int`. -/
def formatInt (n : Int) : String := toString n

/-- The function `os.Open`: the reader over the file's content, or the error's text. -/
def osOpen (env : Env) (w : World) (path : String) : Except String Reader :=
  match env.openError path with
  | some msg => .error msg
  | none =>
    match w.files path with
    | none => .error ("open " ++ path ++ ": no such file or directory")
    | some content =>
      match env.readFault path with
      | none => .ok { data := content.data, ending := .eof }
      | some n => .ok { data := content.data.take n, ending := .ioError }

/-- The function `os.Create`: the file exists and is empty afterwards, or the error's text. -/
def osCreate (env : Env) (w : World) (path : String) : Except String World :=
  match env.createError path with
  | some msg => .error msg
  | none => .ok { w with files := fun p => if p = path then some "" else w.files p }

/-- The method `(*os.File).WriteString` on the file created at `path`: appends to it. -/
def WriteString (w : World) (path : String) (s : String) : World :=
  { w with files := fun p =>
      if p = path then some ((w.files path).getD "" ++ s) else w.files p }

/-! ## Library functions: `strings.Contains` and `bufio.Scanner` -/

/-- Substring search over bytes: does some suffix of the second list start with `substr`? -/
def containsBytes (substr : List Char) : List Char → Bool
  | [] => substr.isPrefixOf []
  | c :: s => substr.isPrefixOf (c :: s) || containsBytes substr s

/-- The function `strings.Contains(s, substr)`. -/
def Contains (s substr : String) : Bool :=
  containsBytes substr.data s.data

/-- The constant `bufio.MaxScanTokenSize`. -/
def MaxScanTokenSize : Nat := 64 * 1024

/-- The function `bufio.dropCR`: drops one trailing carriage return. -/
def dropCR (data : List Char) : List Char :=
  if data.getLast? = some '\r' then data.dropLast else data

/-- The function `bytes.IndexByte`, with `none` for `-1`. -/
def IndexByte : List Char → Char → Option Nat
  | [], _ => none
  | b :: bs, c => if b = c then some 0 else (IndexByte bs c).map (· + 1)

/-- The split function `bufio.ScanLines`: the number of bytes to advance and the token, if
there is one.  It never returns an error. -/
def ScanLines (data : List Char) (atEOF : Bool) : Nat × Option (List Char) :=
  if atEOF && data.isEmpty then (0, none)
  else
    match IndexByte data '\n' with
    | some i => (i + 1, some (dropCR (data.take i)))
    | none => if atEOF then (data.length, some (dropCR data)) else (0, none)

/-- The errors a scanner can hold: `bufio.ErrTooLong`, or the error of the reader. -/
inductive ScanError where
  | errTooLong
  | readError
  deriving DecidableEq, Repr

/-- A `bufio.Scanner` over a reader. -/
structure Scanner where
  /-- The bytes of the reader the scanner has not consumed yet. -/
  pending : List Char
  /-- How the reader ends after them. -/
  ending : ReadEnd
  maxTokenSize : Nat
  /-- The error `Err()` reports; the program never looks at it. -/
  err : Option ScanError

/-- The function `bufio.NewScanner`. -/
def NewScanner (r : Reader) : Scanner :=
  { pending := r.data, ending := r.ending, maxTokenSize := MaxScanTokenSize, err := none }

/-- The error left in the scanner when the reader has ended. -/
def endError : ReadEnd → Option ScanError
  | .eof => none
  | .ioError => some .readError

/-- One call of `Scan`: the token, or `none` when `Scan` returns false.
When everything that is left fits in the buffer without filling it, the scanner reaches the end
of the reader and splits with `atEOF` (an I/O error counts as the end, as in `Scan`).
Otherwise it splits what the buffer holds, `maxTokenSize` bytes, and gives up with
`ErrTooLong` when they hold no token: a full buffer is given up before the reader is asked
again, as it is for a file, whose end shows only in a read of its own. -/
def Scanner.Scan (s : Scanner) : Option (List Char) × Scanner :=
  if s.pending.length < s.maxTokenSize then
    match ScanLines s.pending true with
    | (advance, some token) => (some token, { s with pending := s.pending.drop advance })
    | (_, none) => (none, { s with pending := [], err := endError s.ending })
  else
    match ScanLines (s.pending.take s.maxTokenSize) false with
    | (advance, some token) => (some token, { s with pending := s.pending.drop advance })
    | (_, none) => (none, { s with err := some .errTooLong })

/-- The method `Text`: the token as a string. -/
def Text (token : List Char) : String := String.mk token

/-! ## The program -/

/-- The three counters of the tally loop. -/
structure Counts where
  errorCount : Int
  warningCount : Int
  infoCount : Int
  deriving DecidableEq, Repr

/-- The body of the tally loop: the `switch` over the line. -/
def tallyLine (c : Counts) (line : String) : Counts :=
  if Contains line "ERROR" then { c with errorCount := c.errorCount + 1 }
  else if Contains line "WARNING" then { c with warningCount := c.warningCount + 1 }
  else if Contains line "INFO" then { c with infoCount := c.infoCount + 1 }
  else c

/-- The loop `for scanner.Scan()` with its body, on fuel: the counters and the scanner when
`Scan` has returned false, or `none` when the fuel is used up first. -/
def tallyLoop : Nat → Scanner → Counts → Option (Counts × Scanner)
  | 0, _, _ => none
  | fuel + 1, s, c =>
    match s.Scan with
    | (some token, s') => tallyLoop fuel s' (tallyLine c (Text token))
    | (none, s') => some (c, s')

/-- The function `analyseResult`. -/
def analyseResult (cfg : Config) (errorCount warningCount infoCount : Int) (w : World) : World :=
  let w := Println w "Analysis Results:"
  if cfg.logLevel = "ERROR" then
    Printf w ("ERROR: " ++ formatInt errorCount ++ "\n")
  else if cfg.logLevel = "WARNING" then
    let w := Printf w ("ERROR: " ++ formatInt errorCount ++ "\n")
    Printf w ("WARNING: " ++ formatInt warningCount ++ "\n")
  else if cfg.logLevel = "INFO" then
    let w := Printf w ("ERROR: " ++ formatInt errorCount ++ "\n")
    let w := Printf w ("WARNING: " ++ formatInt warningCount ++ "\n")
    Printf w ("INFO: " ++ formatInt infoCount ++ "\n")
  else w

/-- The function `writeResultsToFile`. -/
def writeResultsToFile (cfg : Config) (env : Env) (errorCount warningCount infoCount : Int)
    (w : World) : World :=
  let reportFile := if cfg.reportPath = "" then defaultReport else cfg.reportPath
  match osCreate env w reportFile with
  | .error err => Println w ("Error creating report file: " ++ err)
  | .ok w =>
    let w :=
      if cfg.logLevel = "ERROR" then
        WriteString w reportFile ("ERROR: " ++ formatInt errorCount ++ "\n")
      else if cfg.logLevel = "WARNING" then
        let w := WriteString w reportFile ("ERROR: " ++ formatInt errorCount ++ "\n")
        WriteString w reportFile ("WARNING: " ++ formatInt warningCount ++ "\n")
      else if cfg.logLevel = "INFO" then
        let w := WriteString w reportFile ("ERROR: " ++ formatInt errorCount ++ "\n")
        let w := WriteString w reportFile ("WARNING: " ++ formatInt warningCount ++ "\n")
        WriteString w reportFile ("INFO: " ++ formatInt infoCount ++ "\n")
      else w
    Printf w ("Results written to " ++ reportFile ++ "\n")

/-- The function `analyzeLog`. -/
def analyzeLog (cfg : Config) (env : Env) (reader : Reader) (w : World) : Option World :=
  match tallyLoop (reader.data.length + 1) (NewScanner reader) ⟨0, 0, 0⟩ with
  | none => none
  | some (c, _) =>
    let w := analyseResult cfg c.errorCount c.warningCount c.infoCount w
    if cfg.outputToFile then
      some (writeResultsToFile cfg env c.errorCount c.warningCount c.infoCount w)
    else some w

/-- The function `analyzeStdin`. -/
def analyzeStdin (cfg : Config) (env : Env) (w : World) : Option World :=
  match tallyLoop (env.stdin.data.length + 1) (NewScanner env.stdin) ⟨0, 0, 0⟩ with
  | none => none
  | some (c, _) =>
    let w := analyseResult cfg c.errorCount c.warningCount c.infoCount w
    if cfg.outputToFile then
      some (writeResultsToFile cfg env c.errorCount c.warningCount c.infoCount w)
    else some w

/-- The function `analyzeFile`. -/
def analyzeFile (cfg : Config) (env : Env) (filePath : String) (w : World) : Option World :=
  match osOpen env w filePath with
  | .error err => some (Println w ("Error opening log file: " ++ err))
  | .ok file => analyzeLog cfg env file w

/-- The `Run` function of `analyzeCmd`. -/
def analyzeCmd (cfg : Config) (env : Env) (w : World) : Option World :=
  let w := Println w "Analyzing..."
  if cfg.logFilePath ≠ "" then analyzeFile cfg env cfg.logFilePath w
  else analyzeStdin cfg env (Println w "Reading from standard input...")

/-- The function `strconv.ParseBool`, with `none` for a value it rejects. -/
def ParseBool (s : String) : Option Bool :=
  if s = "1" ∨ s = "t" ∨ s = "T" ∨ s = "TRUE" ∨ s = "true" ∨ s = "True" then some true
  else if s = "0" ∨ s = "f" ∨ s = "F" ∨ s = "FALSE" ∨ s = "false" ∨ s = "False" then some false
  else none

/-- The function `initConfig`, run on the variables as the flags have left them; `getenv` is
`os.Getenv`.  A value `ParseBool` rejects leaves `false`, the error being dropped. -/
def initConfig (getenv : String → String) (cfg : Config) : Config :=
  let cfg :=
    if getenv "LOG_FILE" ≠ "" ∧ cfg.logFilePath = "" then
      { cfg with logFilePath := getenv "LOG_FILE" }
    else cfg
  let cfg :=
    if getenv "LOG_LEVEL" ≠ "" ∧ cfg.logLevel = "" then
      { cfg with logLevel := getenv "LOG_LEVEL" }
    else cfg
  let cfg :=
    if getenv "OUTPUT_TO_FILE" ≠ "" ∧ cfg.outputToFile = false then
      { cfg with outputToFile := (ParseBool (getenv "OUTPUT_TO_FILE")).getD false }
    else cfg
  if getenv "REPORT_PATH" ≠ "" ∧ cfg.reportPath = "" then
    { cfg with reportPath := getenv "REPORT_PATH" }
  else cfg

/-- The flags of a command line that parses: for each of the four flags `init` registers, the
value it was supplied with, or `none` when it was not supplied. -/
structure Flags where
  logFile : Option String
  logLevel : Option String
  outputToFile : Option Bool
  reportFile : Option String

/-- The variables after the flags are parsed: `init` registers each flag with its variable and
the default `""` or `false`, and a supplied flag overwrites the default with its value. -/
def flagValues (f : Flags) : Config :=
  { logFilePath := f.logFile.getD ""
    logLevel := f.logLevel.getD ""
    outputToFile := f.outputToFile.getD false
    reportPath := f.reportFile.getD "" }

/-- The process run as `log-analyzer analyze` with the given flags: the world it leaves and its
exit status.  The function `init` runs `rootCmd.Execute()`, which parses the flags, calls
`initConfig` and then the `Run` function of `analyzeCmd`; `init` drops what `Execute` returns,
`main` is empty, and no function of the program calls `os.Exit`, so the process ends when `main`
returns, with status 0. -/
def mainProcess (flags : Flags) (getenv : String → String) (env : Env) (w : World) :
    Option (World × Nat) :=
  match analyzeCmd (initConfig getenv (flagValues flags)) env w with
  | none => none
  | some w' => some (w', 0)

/-! ## Definitions used to state and prove the properties -/

/-- All the tokens `Scan` yields until it returns false, and the scanner left behind; `none`
when the fuel is used up first. -/
def scanAll : Nat → Scanner → Option (List (List Char) × Scanner)
  | 0, _ => none
  | fuel + 1, s =>
    match s.Scan with
    | (some token, s') => (scanAll fuel s').map (fun r => (token :: r.1, r.2))
    | (none, s') => some ([], s')

/-- The scanner `s` yields exactly the tokens `lines` and ends in `s'`, for some fuel. -/
def Scans (s : Scanner) (lines : List (List Char)) (s' : Scanner) : Prop :=
  ∃ fuel, scanAll fuel s = some (lines, s')

/-- The byte stream made of the given lines, each followed by a newline. -/
def unlines : List (List Char) → List Char
  | [] => []
  | l :: ls => l ++ '\n' :: unlines ls

/-- The label lines the switch over `logLevel` selects, as one string. -/
def labelLines (logLevel : String) (errorCount warningCount infoCount : Int) : String :=
  if logLevel = "ERROR" then "ERROR: " ++ formatInt errorCount ++ "\n"
  else if logLevel = "WARNING" then
    "ERROR: " ++ formatInt errorCount ++ "\n" ++ ("WARNING: " ++ formatInt warningCount ++ "\n")
  else if logLevel = "INFO" then
    "ERROR: " ++ formatInt errorCount ++ "\n" ++ ("WARNING: " ++ formatInt warningCount ++ "\n")
      ++ ("INFO: " ++ formatInt infoCount ++ "\n")
  else ""

/-- What `analyzeLog` and `analyzeStdin` do after the loop, for the counters it has left: the
call of `analyseResult`, then that of `writeResultsToFile` when `outputToFile` is set. -/
def report (cfg : Config) (env : Env) (c : Counts) (w : World) : World :=
  let w := analyseResult cfg c.errorCount c.warningCount c.infoCount w
  if cfg.outputToFile then
    writeResultsToFile cfg env c.errorCount c.warningCount c.infoCount w
  else w

/-- What `report` appends to standard output: the header, the label lines and, when
`outputToFile` is set, the line about the report file. -/
def reportOutput (cfg : Config) (env : Env) (c : Counts) : String :=
  "Analysis Results:\n" ++ labelLines cfg.logLevel c.errorCount c.warningCount c.infoCount ++
    (if cfg.outputToFile then
      match env.createError (if cfg.reportPath = "" then defaultReport else cfg.reportPath) with
      | none => "Results written to "
          ++ (if cfg.reportPath = "" then defaultReport else cfg.reportPath) ++ "\n"
      | some msg => "Error creating report file: " ++ msg ++ "\n"
    else "")

/-- An environment in which nothing fails, with the given standard input. -/
def Env.plain (stdin : Reader) : Env :=
  { stdin := stdin, openError := fun _ => none, readFault := fun _ => none,
    createError := fun _ => none }

/-- An environment in which the given path can be neither opened nor created, and nothing else
fails. -/
def Env.denied (path : String) : Env :=
  { stdin := ⟨[], .eof⟩
    openError := fun p => if p = path then some "permission denied" else none
    readFault := fun _ => none
    createError := fun p => if p = path then some "permission denied" else none }

/-- A line without one trailing carriage return, as the specification words it. -/
def stripCR (line : List Char) : List Char :=
  match line.reverse with
  | '\r' :: rest => rest.reverse
  | _ => line

/-- The lines of a byte stream as the specification words them: the stream is split on the
newline, the terminator belongs to no line, what follows the last newline is a line when it is
not empty, and one trailing carriage return is removed from each line. -/
def specLines (data : List Char) : List (List Char) :=
  let segments := data.splitOn '\n'
  let lines := if segments.getLast? = some [] then segments.dropLast else segments
  lines.map stripCR

/-- The byte stream with every newline replaced by carriage return and newline. -/
def toCRLF : List Char → List Char
  | [] => []
  | c :: cs => if c = '\n' then '\r' :: '\n' :: toCRLF cs else c :: toCRLF cs

/-! ## The report: what `analyseResult` and `writeResultsToFile` produce -/

/-- The console report is the header followed by the selected label lines. -/
theorem analyseResult_eq (cfg : Config) (e w i : Int) (wld : World) :
    analyseResult cfg e w i wld =
      { wld with stdout := wld.stdout ++ "Analysis Results:\n" ++ labelLines cfg.logLevel e w i } := by
  unfold analyseResult labelLines
  split_ifs <;> simp [Printf, Println, String.append_assoc]

/-- When the report file can be created it holds the selected label lines afterwards, and
the success line names it. -/
theorem writeResultsToFile_ok (cfg : Config) (env : Env) (e w i : Int) (wld : World)
    (h : env.createError (if cfg.reportPath = "" then defaultReport else cfg.reportPath) = none) :
    writeResultsToFile cfg env e w i wld =
      { wld with
        stdout := wld.stdout ++ "Results written to "
          ++ (if cfg.reportPath = "" then defaultReport else cfg.reportPath) ++ "\n"
        files := fun p =>
          if p = (if cfg.reportPath = "" then defaultReport else cfg.reportPath)
          then some (labelLines cfg.logLevel e w i) else wld.files p } := by
  unfold writeResultsToFile labelLines osCreate
  simp only [h]
  split_ifs <;> simp [Printf, WriteString, String.append_assoc] <;> funext p <;> split_ifs <;> simp [String.append_assoc]

/-- When the report file cannot be created only the error line is printed, to standard
output. -/
theorem writeResultsToFile_fail (cfg : Config) (env : Env) (e w i : Int) (wld : World) (msg : String)
    (h : env.createError (if cfg.reportPath = "" then defaultReport else cfg.reportPath) = some msg) :
    writeResultsToFile cfg env e w i wld =
      { wld with stdout := wld.stdout ++ "Error creating report file: " ++ msg ++ "\n" } := by
  unfold writeResultsToFile osCreate
  simp only [h]
  simp [Printf, Println, String.append_assoc]

/-! ## One call of `Scan` -/

theorem IndexByte_append (c : Char) (l rest : List Char) (h : c ∉ l) :
    IndexByte (l ++ c :: rest) c = some l.length := by
  induction l with
  | nil => simp [IndexByte]
  | cons a l ih =>
    have ha : a ≠ c := fun e => h (by simp [e])
    have hl : c ∉ l := fun m => h (by simp [m])
    simp [IndexByte, ha, ih hl]

theorem IndexByte_none (c : Char) (l : List Char) (h : c ∉ l) : IndexByte l c = none := by
  induction l with
  | nil => simp [IndexByte]
  | cons a l ih =>
    have ha : a ≠ c := fun e => h (by simp [e])
    have hl : c ∉ l := fun m => h (by simp [m])
    simp [IndexByte, ha, ih hl]

theorem IndexByte_some (c : Char) (l : List Char) (i : Nat) (h : IndexByte l c = some i) :
    ∃ rest, l = l.take i ++ c :: rest ∧ c ∉ l.take i ∧ i < l.length := by
  induction l generalizing i with
  | nil => simp [IndexByte] at h
  | cons a l ih =>
    by_cases ha : a = c
    · simp [IndexByte, ha] at h
      subst h
      exact ⟨l, by simp [ha], by simp, by simp⟩
    · simp only [IndexByte, ha, if_false, Option.map_eq_some'] at h
      obtain ⟨j, hj, rfl⟩ := h
      obtain ⟨rest, h1, h2, h3⟩ := ih j hj
      refine ⟨rest, ?_, ?_, ?_⟩
      · simp only [List.take_succ_cons, List.cons_append]
        rw [← h1]
      · simp only [List.take_succ_cons, List.mem_cons, not_or]
        exact ⟨fun e => ha e.symm, h2⟩
      · simp; omega

theorem ScanLines_line (line rest : List Char) (atEOF : Bool) (hn : '\n' ∉ line) :
    ScanLines (line ++ '\n' :: rest) atEOF = (line.length + 1, some (dropCR line)) := by
  simp [ScanLines, IndexByte_append _ _ _ hn]

theorem ScanLines_last (line : List Char) (hn : '\n' ∉ line) (hne : line ≠ []) :
    ScanLines line true = (line.length, some (dropCR line)) := by
  simp [ScanLines, IndexByte_none _ _ hn, hne]

theorem ScanLines_more (data : List Char) (hn : '\n' ∉ data) :
    ScanLines data false = (0, none) := by
  simp [ScanLines, IndexByte_none _ _ hn]

/-- A line that fits, followed by its newline, is the next token. -/
theorem Scan_line (s : Scanner) (line rest : List Char) (hp : s.pending = line ++ '\n' :: rest)
    (hn : '\n' ∉ line) (hl : line.length < s.maxTokenSize) :
    s.Scan = (some (dropCR line), { s with pending := rest }) := by
  unfold Scanner.Scan
  split_ifs with h
  · rw [hp, ScanLines_line _ _ _ hn]
    simp
  · obtain ⟨k, hk⟩ : ∃ k, s.maxTokenSize = line.length + (1 + k) := ⟨s.maxTokenSize - line.length - 1, by omega⟩
    have ht : (s.pending.take s.maxTokenSize) = line ++ '\n' :: rest.take k := by
      rw [hp, hk, List.take_append]
      simp [Nat.add_comm 1 k]
    rw [ht, ScanLines_line _ _ _ hn, hp]
    simp

/-- What is left without a newline, when it fits, is the final token. -/
theorem Scan_last (s : Scanner) (hn : '\n' ∉ s.pending) (hne : s.pending ≠ [])
    (hl : s.pending.length < s.maxTokenSize) :
    s.Scan = (some (dropCR s.pending), { s with pending := [] }) := by
  unfold Scanner.Scan
  rw [if_pos hl, ScanLines_last _ hn hne]
  simp

/-- With nothing left, `Scan` returns false and keeps the error of the reader. -/
theorem Scan_end (s : Scanner) (hp : s.pending = []) (hl : 0 < s.maxTokenSize) :
    s.Scan = (none, { s with pending := [], err := endError s.ending }) := by
  unfold Scanner.Scan
  simp [hp, hl, ScanLines]

/-- A full buffer without a newline makes `Scan` return false with `ErrTooLong`. -/
theorem Scan_tooLong (s : Scanner) (hn : '\n' ∉ s.pending.take s.maxTokenSize)
    (hl : s.maxTokenSize ≤ s.pending.length) :
    s.Scan = (none, { s with err := some .errTooLong }) := by
  unfold Scanner.Scan
  rw [if_neg (by omega), ScanLines_more _ hn]

/-! ## The loop ends: every token consumes input -/

theorem ScanLines_some (data : List Char) (atEOF : Bool) (adv : Nat) (tok : List Char)
    (h : ScanLines data atEOF = (adv, some tok)) : 0 < adv ∧ adv ≤ data.length := by
  unfold ScanLines at h
  cases hi : IndexByte data '\n' with
  | some i =>
    obtain ⟨_, _, h3⟩ := IndexByte_some _ _ _ hi
    by_cases h1 : (atEOF && data.isEmpty) = true
    · simp [h1] at h
    · simp only [h1, hi, Bool.false_eq_true, if_false, Prod.mk.injEq, Option.some.injEq] at h
      omega
  | none =>
    cases atEOF with
    | false => simp [hi] at h
    | true =>
      by_cases h1 : data = []
      · simp [h1] at h
      · have : 0 < data.length := List.length_pos.mpr h1
        simp [hi, h1] at h
        omega

/-- A call of `Scan` that returns a token consumes at least one byte. -/
theorem Scan_some (s s' : Scanner) (tok : List Char) (h : s.Scan = (some tok, s')) :
    s'.pending.length < s.pending.length ∧ s'.maxTokenSize = s.maxTokenSize
      ∧ s'.ending = s.ending ∧ s'.err = s.err := by
  unfold Scanner.Scan at h
  split_ifs at h with h1
  · rcases hs : ScanLines s.pending true with ⟨adv, _ | t⟩
    · rw [hs] at h; simp at h
    · rw [hs] at h
      simp only [Prod.mk.injEq, Option.some.injEq] at h
      obtain ⟨h2, h3⟩ := ScanLines_some _ _ _ _ hs
      rw [← h.2]
      simp only [List.length_drop, and_self, and_true]
      omega
  · rcases hs : ScanLines (s.pending.take s.maxTokenSize) false with ⟨adv, _ | t⟩
    · rw [hs] at h; simp at h
    · rw [hs] at h
      simp only [Prod.mk.injEq, Option.some.injEq] at h
      obtain ⟨h2, h3⟩ := ScanLines_some _ _ _ _ hs
      rw [← h.2]
      simp only [List.length_drop, and_self, and_true]
      simp only [List.length_take] at h3
      omega

/-- More fuel than bytes left is enough for the loop to end. -/
theorem scanAll_total (fuel : Nat) (s : Scanner) (h : s.pending.length < fuel) :
    ∃ r, scanAll fuel s = some r := by
  induction fuel generalizing s with
  | zero => omega
  | succ n ih =>
    unfold scanAll
    rcases hs : s.Scan with ⟨_ | tok, s'⟩
    · exact ⟨_, rfl⟩
    · obtain ⟨h1, -⟩ := Scan_some _ _ _ hs
      obtain ⟨r, hr⟩ := ih s' (by omega)
      exact ⟨(tok :: r.1, r.2), by simp [hr]⟩

/-- A result is not changed by more fuel. -/
theorem scanAll_mono (fuel fuel' : Nat) (s : Scanner) (r : List (List Char) × Scanner)
    (h : scanAll fuel s = some r) (hle : fuel ≤ fuel') : scanAll fuel' s = some r := by
  induction fuel generalizing s r fuel' with
  | zero => simp [scanAll] at h
  | succ n ih =>
    obtain ⟨m, rfl⟩ : ∃ m, fuel' = m + 1 := ⟨fuel' - 1, by omega⟩
    unfold scanAll at h ⊢
    rcases hs : s.Scan with ⟨_ | tok, s'⟩
    · rw [hs] at h; exact h
    · rw [hs] at h
      simp only [Option.map_eq_some'] at h ⊢
      obtain ⟨a, ha, rfl⟩ := h
      exact ⟨a, ih _ _ _ ha (by omega), rfl⟩

/-- The tally loop folds its body over the tokens `Scan` yields. -/
theorem tallyLoop_eq (fuel : Nat) (s : Scanner) (c : Counts) :
    tallyLoop fuel s c =
      (scanAll fuel s).map
        (fun r => (r.1.foldl (fun c token => tallyLine c (Text token)) c, r.2)) := by
  induction fuel generalizing s c with
  | zero => simp [tallyLoop, scanAll]
  | succ n ih =>
    unfold tallyLoop scanAll
    rcases hs : s.Scan with ⟨_ | tok, s'⟩
    · simp
    · simp only [ih, Option.map_map]
      rfl

/-! ## The classification of one line and of a list of lines -/

/-- The search of `strings.Contains` finds exactly the contiguous sublists. -/
theorem containsBytes_iff (substr s : List Char) :
    containsBytes substr s = true ↔ substr <:+: s := by
  induction s with
  | nil => simp [containsBytes, List.isPrefixOf_iff_prefix]
  | cons c s ih =>
    simp only [containsBytes, Bool.or_eq_true, ih, List.isPrefixOf_iff_prefix]
    exact List.infix_cons_iff.symm

theorem Contains_iff (s substr : String) : Contains s substr = true ↔ substr.data <:+: s.data :=
  containsBytes_iff _ _

theorem tallyLine_error (c : Counts) (line : String) (h : "ERROR".data <:+: line.data) :
    tallyLine c line = { c with errorCount := c.errorCount + 1 } := by
  simp [tallyLine, (Contains_iff line "ERROR").mpr h]

theorem tallyLine_warning (c : Counts) (line : String) (h1 : ¬ "ERROR".data <:+: line.data)
    (h2 : "WARNING".data <:+: line.data) :
    tallyLine c line = { c with warningCount := c.warningCount + 1 } := by
  have e1 : Contains line "ERROR" = false := by
    rw [← Bool.not_eq_true, Contains_iff]; exact h1
  simp [tallyLine, e1, (Contains_iff line "WARNING").mpr h2]

theorem tallyLine_info (c : Counts) (line : String) (h1 : ¬ "ERROR".data <:+: line.data)
    (h2 : ¬ "WARNING".data <:+: line.data) (h3 : "INFO".data <:+: line.data) :
    tallyLine c line = { c with infoCount := c.infoCount + 1 } := by
  have e1 : Contains line "ERROR" = false := by
    rw [← Bool.not_eq_true, Contains_iff]; exact h1
  have e2 : Contains line "WARNING" = false := by
    rw [← Bool.not_eq_true, Contains_iff]; exact h2
  simp [tallyLine, e1, e2, (Contains_iff line "INFO").mpr h3]

theorem tallyLine_none (c : Counts) (line : String) (h1 : ¬ "ERROR".data <:+: line.data)
    (h2 : ¬ "WARNING".data <:+: line.data) (h3 : ¬ "INFO".data <:+: line.data) :
    tallyLine c line = c := by
  have e1 : Contains line "ERROR" = false := by
    rw [← Bool.not_eq_true, Contains_iff]; exact h1
  have e2 : Contains line "WARNING" = false := by
    rw [← Bool.not_eq_true, Contains_iff]; exact h2
  have e3 : Contains line "INFO" = false := by
    rw [← Bool.not_eq_true, Contains_iff]; exact h3
  simp [tallyLine, e1, e2, e3]

/-- The loop body, folded over lines, counts them by category. -/
theorem foldl_tallyLine (lines : List (List Char)) (c : Counts) :
    lines.foldl (fun c token => tallyLine c (Text token)) c =
      { errorCount := c.errorCount + lines.countP (fun l => decide ("ERROR".data <:+: l))
        warningCount := c.warningCount +
          lines.countP (fun l => decide ("WARNING".data <:+: l ∧ ¬ "ERROR".data <:+: l))
        infoCount := c.infoCount +
          lines.countP (fun l => decide ("INFO".data <:+: l ∧ ¬ "ERROR".data <:+: l
            ∧ ¬ "WARNING".data <:+: l)) } := by
  induction lines generalizing c with
  | nil => simp
  | cons l ls ih =>
    rw [List.foldl_cons, ih]
    by_cases h1 : "ERROR".data <:+: l
    · rw [tallyLine_error c (Text l) h1]
      simp [List.countP_cons, h1]
      omega
    · by_cases h2 : "WARNING".data <:+: l
      · rw [tallyLine_warning c (Text l) h1 h2]
        simp [List.countP_cons, h1, h2]
        omega
      · by_cases h3 : "INFO".data <:+: l
        · rw [tallyLine_info c (Text l) h1 h2 h3]
          simp [List.countP_cons, h1, h2, h3]
          omega
        · rw [tallyLine_none c (Text l) h1 h2 h3]
          simp [List.countP_cons, h1, h2, h3]

theorem tallyLine_sum_le (c : Counts) (line : String) :
    (tallyLine c line).errorCount + (tallyLine c line).warningCount + (tallyLine c line).infoCount
      ≤ c.errorCount + c.warningCount + c.infoCount + 1 := by
  unfold tallyLine
  split_ifs <;> simp <;> omega

theorem foldl_tallyLine_sum_le (lines : List (List Char)) (c : Counts) :
    (lines.foldl (fun c token => tallyLine c (Text token)) c).errorCount
      + (lines.foldl (fun c token => tallyLine c (Text token)) c).warningCount
      + (lines.foldl (fun c token => tallyLine c (Text token)) c).infoCount
      ≤ c.errorCount + c.warningCount + c.infoCount + lines.length := by
  induction lines generalizing c with
  | nil => simp
  | cons l ls ih =>
    rw [List.foldl_cons]
    have h1 := ih (tallyLine c (Text l))
    have h2 := tallyLine_sum_le c (Text l)
    simp only [List.length_cons, Nat.cast_add, Nat.cast_one]
    omega

/-- The tally loop ends on every reader, with the fold over the scanned lines. -/
theorem tallyLoop_scanAll (r : Reader) :
    ∃ lines s, scanAll (r.data.length + 1) (NewScanner r) = some (lines, s) ∧
      tallyLoop (r.data.length + 1) (NewScanner r) ⟨0, 0, 0⟩ =
        some (lines.foldl (fun c token => tallyLine c (Text token)) ⟨0, 0, 0⟩, s) := by
  obtain ⟨⟨lines, s⟩, h⟩ := scanAll_total (r.data.length + 1) (NewScanner r)
    (by simp [NewScanner])
  exact ⟨lines, s, h, by rw [tallyLoop_eq, h]; rfl⟩

/-! ## The functions of the program in terms of `report` -/

theorem Println_stdout (w : World) (s : String) :
    (Println w s).stdout = w.stdout ++ (s ++ "\n") := rfl

theorem Println_str :
    "Analyzing..." ++ "\n" = "Analyzing...\n"
    ∧ "Reading from standard input..." ++ "\n" = "Reading from standard input...\n" :=
  ⟨by decide, by decide⟩

/-- The function `analyzeLog` is the tally loop followed by `report`. -/
theorem analyzeLog_eq (cfg : Config) (env : Env) (reader : Reader) (w : World) :
    analyzeLog cfg env reader w =
      (tallyLoop (reader.data.length + 1) (NewScanner reader) ⟨0, 0, 0⟩).map
        (fun r => report cfg env r.1 w) := by
  unfold analyzeLog report
  rcases tallyLoop (reader.data.length + 1) (NewScanner reader) ⟨0, 0, 0⟩ with _ | ⟨c, s⟩
  · rfl
  · simp only [Option.map_some']
    split_ifs <;> rfl

/-- The function `analyzeStdin` is the tally loop over standard input followed by `report`. -/
theorem analyzeStdin_eq (cfg : Config) (env : Env) (w : World) :
    analyzeStdin cfg env w =
      (tallyLoop (env.stdin.data.length + 1) (NewScanner env.stdin) ⟨0, 0, 0⟩).map
        (fun r => report cfg env r.1 w) := by
  unfold analyzeStdin report
  rcases tallyLoop (env.stdin.data.length + 1) (NewScanner env.stdin) ⟨0, 0, 0⟩ with _ | ⟨c, s⟩
  · rfl
  · simp only [Option.map_some']
    split_ifs <;> rfl

theorem tallyLoop_total (r : Reader) :
    ∃ c s, tallyLoop (r.data.length + 1) (NewScanner r) ⟨0, 0, 0⟩ = some (c, s) := by
  obtain ⟨lines, s, -, h⟩ := tallyLoop_scanAll r
  exact ⟨_, s, h⟩

theorem analyzeLog_total (cfg : Config) (env : Env) (reader : Reader) (w : World) :
    ∃ c, analyzeLog cfg env reader w = some (report cfg env c w) := by
  obtain ⟨c, s, h⟩ := tallyLoop_total reader
  exact ⟨c, by rw [analyzeLog_eq, h]; rfl⟩

theorem analyzeStdin_total (cfg : Config) (env : Env) (w : World) :
    ∃ c, analyzeStdin cfg env w = some (report cfg env c w) := by
  obtain ⟨c, s, h⟩ := tallyLoop_total env.stdin
  exact ⟨c, by rw [analyzeStdin_eq, h]; rfl⟩

theorem writeResultsToFile_stdout (cfg : Config) (env : Env) (e n i : Int) (w : World) :
    ∃ out, (writeResultsToFile cfg env e n i w).stdout = w.stdout ++ out := by
  cases h : env.createError (if cfg.reportPath = "" then defaultReport else cfg.reportPath) with
  | none =>
    rw [writeResultsToFile_ok cfg env e n i w h]
    exact ⟨"Results written to "
      ++ (if cfg.reportPath = "" then defaultReport else cfg.reportPath) ++ "\n",
      by simp only [String.append_assoc]⟩
  | some msg =>
    rw [writeResultsToFile_fail cfg env e n i w msg h]
    exact ⟨"Error creating report file: " ++ msg ++ "\n", by simp only [String.append_assoc]⟩

theorem report_stdout (cfg : Config) (env : Env) (c : Counts) (w : World) :
    ∃ out, (report cfg env c w).stdout = w.stdout ++ "Analysis Results:\n" ++ out := by
  unfold report
  simp only
  split_ifs
  · obtain ⟨out, h⟩ := writeResultsToFile_stdout cfg env c.errorCount c.warningCount c.infoCount
      (analyseResult cfg c.errorCount c.warningCount c.infoCount w)
    rw [h, analyseResult_eq]
    exact ⟨labelLines cfg.logLevel c.errorCount c.warningCount c.infoCount ++ out,
      by simp only [String.append_assoc]⟩
  · rw [analyseResult_eq]
    exact ⟨_, rfl⟩

theorem labelLines_other (level : String) (e n i : Int) (h1 : level ≠ "ERROR")
    (h2 : level ≠ "WARNING") (h3 : level ≠ "INFO") : labelLines level e n i = "" := by
  simp [labelLines, h1, h2, h3]

theorem analyseResult_other (cfg : Config) (e n i : Int) (w : World) (h1 : cfg.logLevel ≠ "ERROR")
    (h2 : cfg.logLevel ≠ "WARNING") (h3 : cfg.logLevel ≠ "INFO") :
    analyseResult cfg e n i w = Println w "Analysis Results:" := by
  simp [analyseResult, h1, h2, h3]

theorem writeResultsToFile_other (cfg : Config) (env : Env) (e n i : Int) (w : World)
    (h1 : cfg.logLevel ≠ "ERROR") (h2 : cfg.logLevel ≠ "WARNING") (h3 : cfg.logLevel ≠ "INFO") :
    writeResultsToFile cfg env e n i w =
      writeResultsToFile { cfg with logLevel := "" } env e n i w := by
  simp [writeResultsToFile, h1, h2, h3]

theorem report_other (cfg : Config) (env : Env) (c : Counts) (w : World)
    (h1 : cfg.logLevel ≠ "ERROR") (h2 : cfg.logLevel ≠ "WARNING") (h3 : cfg.logLevel ≠ "INFO") :
    report cfg env c w = report { cfg with logLevel := "" } env c w := by
  unfold report
  rw [analyseResult_other cfg _ _ _ w h1 h2 h3,
    analyseResult_other { cfg with logLevel := "" } _ _ _ w (by simp) (by simp) (by simp)]
  simp only
  split_ifs
  · exact writeResultsToFile_other cfg env _ _ _ _ h1 h2 h3
  · rfl

/-- A level that is none of the three known ones acts as the empty level. -/
theorem analyzeCmd_other (cfg : Config) (env : Env) (w : World)
    (h1 : cfg.logLevel ≠ "ERROR") (h2 : cfg.logLevel ≠ "WARNING") (h3 : cfg.logLevel ≠ "INFO") :
    analyzeCmd cfg env w = analyzeCmd { cfg with logLevel := "" } env w := by
  unfold analyzeCmd analyzeFile
  simp only [analyzeLog_eq, analyzeStdin_eq, report_other cfg env _ _ h1 h2 h3]

/-- Every run ends, and the first thing it writes is the progress line. -/
theorem analyzeCmd_total (cfg : Config) (env : Env) (w : World) :
    ∃ w', analyzeCmd cfg env w = some w' ∧
      ∃ out, w'.stdout = w.stdout ++ "Analyzing...\n" ++ out := by
  unfold analyzeCmd analyzeFile
  simp only
  split_ifs with hp
  · cases ho : osOpen env (Println w "Analyzing...") cfg.logFilePath with
    | error err =>
      exact ⟨_, rfl, "Error opening log file: " ++ err ++ "\n",
        by simp only [Println_stdout, Println_str, String.append_assoc]⟩
    | ok file =>
      obtain ⟨c, hc⟩ := analyzeLog_total cfg env file (Println w "Analyzing...")
      obtain ⟨out, ho⟩ := report_stdout cfg env c (Println w "Analyzing...")
      refine ⟨_, hc, "Analysis Results:\n" ++ out, ?_⟩
      rw [ho]
      simp only [Println_stdout, Println_str, String.append_assoc]
  · obtain ⟨c, hc⟩ := analyzeStdin_total cfg env
      (Println (Println w "Analyzing...") "Reading from standard input...")
    obtain ⟨out, ho⟩ := report_stdout cfg env c
      (Println (Println w "Analyzing...") "Reading from standard input...")
    refine ⟨_, hc, "Reading from standard input...\n" ++ ("Analysis Results:\n" ++ out), ?_⟩
    rw [ho]
    simp only [Println_stdout, Println_str, String.append_assoc]

/-! ## How the reader ends does not change the tokens -/

/-- The tokens depend on the bytes and the buffer limit only. -/
theorem scanAll_ending (fuel : Nat) (s t : Scanner) (hp : t.pending = s.pending)
    (hm : t.maxTokenSize = s.maxTokenSize) :
    (scanAll fuel t).map (fun r => r.1) = (scanAll fuel s).map (fun r => r.1) := by
  induction fuel generalizing s t with
  | zero => simp [scanAll]
  | succ n ih =>
    have key : (Scanner.Scan t).1 = s.Scan.1 ∧ (Scanner.Scan t).2.pending = s.Scan.2.pending
        ∧ (Scanner.Scan t).2.maxTokenSize = s.Scan.2.maxTokenSize := by
      unfold Scanner.Scan
      rw [hp, hm]
      split_ifs with h
      · rcases ScanLines s.pending true with ⟨adv, _ | t⟩ <;> simp
      · rcases ScanLines (s.pending.take s.maxTokenSize) false with ⟨adv, _ | t⟩ <;> simp [hp]
    unfold scanAll
    rcases hs : s.Scan with ⟨_ | tok, s'⟩ <;> rcases hts : t.Scan with ⟨_ | tok', t'⟩ <;>
      rw [hs, hts] at key <;> simp at key
    · simp
    · obtain ⟨rfl, h2, h3⟩ := key
      have := congrArg (Option.map (fun l => tok' :: l)) (ih s' t' h2 h3)
      simpa only [Option.map_map, Function.comp_def] using this

theorem tallyLoop_ending (data : List Char) (e e' : ReadEnd) (c : Counts) :
    (tallyLoop (data.length + 1) (NewScanner ⟨data, e⟩) c).map (fun r => r.1) =
      (tallyLoop (data.length + 1) (NewScanner ⟨data, e'⟩) c).map (fun r => r.1) := by
  have h := congrArg (Option.map (fun l => l.foldl (fun c token => tallyLine c (Text token)) c))
    (scanAll_ending (data.length + 1) (NewScanner ⟨data, e'⟩) (NewScanner ⟨data, e⟩) rfl rfl)
  simpa only [tallyLoop_eq, Option.map_map, Function.comp_def] using h

theorem analyzeLog_ending (cfg : Config) (env : Env) (data : List Char) (e e' : ReadEnd)
    (w : World) :
    analyzeLog cfg env ⟨data, e⟩ w = analyzeLog cfg env ⟨data, e'⟩ w := by
  have h := congrArg (Option.map (fun c => report cfg env c w))
    (tallyLoop_ending data e e' ⟨0, 0, 0⟩)
  simpa only [analyzeLog_eq, Option.map_map, Function.comp_def] using h

/-- A reader that ends in an I/O error leaves an error in the scanner. -/
theorem scanAll_err (fuel : Nat) (s s' : Scanner) (lines : List (List Char))
    (h : scanAll fuel s = some (lines, s')) (he : s.ending = .ioError) : s'.err ≠ none := by
  induction fuel generalizing s lines with
  | zero => simp [scanAll] at h
  | succ n ih =>
    unfold scanAll at h
    rcases hs : s.Scan with ⟨_ | tok, s₁⟩
    · rw [hs] at h
      simp only [Option.some.injEq, Prod.mk.injEq] at h
      unfold Scanner.Scan at hs
      split_ifs at hs with hl
      · rcases hsl : ScanLines s.pending true with ⟨adv, _ | t⟩
        · rw [hsl] at hs
          simp only [Prod.mk.injEq, true_and] at hs
          rw [← h.2, ← hs, he]
          simp [endError]
        · rw [hsl] at hs; simp at hs
      · rcases hsl : ScanLines (s.pending.take s.maxTokenSize) false with ⟨adv, _ | t⟩
        · rw [hsl] at hs
          simp only [Prod.mk.injEq, true_and] at hs
          rw [← h.2, ← hs]
          simp
        · rw [hsl] at hs; simp at hs
    · rw [hs] at h
      simp only [Option.map_eq_some'] at h
      obtain ⟨⟨l, s₂⟩, h1, h2⟩ := h
      simp only [Prod.mk.injEq] at h2
      obtain ⟨-, -, h3, -⟩ := Scan_some _ _ _ hs
      obtain ⟨-, rfl⟩ := h2
      exact ih s₁ l h1 (by rw [h3, he])

/-! ## The tokens of a stream given as lines -/

theorem Scans_scanAll_eq {s s' : Scanner} {lines : List (List Char)} (h : Scans s lines s')
    (fuel : Nat) (hf : s.pending.length < fuel) : scanAll fuel s = some (lines, s') := by
  obtain ⟨f0, h0⟩ := h
  obtain ⟨r, hr⟩ := scanAll_total fuel s hf
  have h1 := scanAll_mono f0 (max f0 fuel) s _ h0 (le_max_left _ _)
  have h2 := scanAll_mono fuel (max f0 fuel) s _ hr (le_max_right _ _)
  rw [h1] at h2
  rw [hr, ← Option.some.inj h2]

theorem Scans_stop {s s' : Scanner} (h : s.Scan = (none, s')) : Scans s [] s' :=
  ⟨1, by simp [scanAll, h]⟩

theorem Scans_step {s s₁ s' : Scanner} {tok : List Char} {lines : List (List Char)}
    (h : s.Scan = (some tok, s₁)) (h' : Scans s₁ lines s') : Scans s (tok :: lines) s' := by
  obtain ⟨f, hf⟩ := h'
  exact ⟨f + 1, by simp [scanAll, h, hf]⟩

/-- Lines that fit, each with its newline, are scanned one by one before the rest. -/
theorem Scans_unlines (ls : List (List Char)) (rest : List Char) (s s' : Scanner)
    (lines : List (List Char))
    (hls : ∀ l ∈ ls, '\n' ∉ l ∧ l.length < s.maxTokenSize)
    (h : Scans { s with pending := rest } lines s') :
    Scans { s with pending := unlines ls ++ rest } (ls.map dropCR ++ lines) s' := by
  induction ls with
  | nil => simpa [unlines] using h
  | cons l ls ih =>
    have hl := hls l (by simp)
    have ih' := ih (fun x hx => hls x (by simp [hx]))
    have hs := Scan_line { s with pending := unlines (l :: ls) ++ rest } l (unlines ls ++ rest)
      (by simp [unlines]) hl.1 hl.2
    simpa using Scans_step hs ih'

theorem Scans_end (s : Scanner) (hp : s.pending = []) (hm : 0 < s.maxTokenSize) :
    Scans s [] { s with pending := [], err := endError s.ending } :=
  Scans_stop (Scan_end s hp hm)

theorem Scans_last (s : Scanner) (hn : '\n' ∉ s.pending) (hl : s.pending.length < s.maxTokenSize) :
    Scans s (if s.pending = [] then [] else [dropCR s.pending])
      { s with pending := [], err := endError s.ending } := by
  split_ifs with h
  · exact Scans_end s h (by omega)
  · exact Scans_step (Scan_last s hn h hl)
      (Scans_end { s with pending := [] } rfl (by simp; omega))

theorem Scans_tooLong (s : Scanner) (hn : '\n' ∉ s.pending.take s.maxTokenSize)
    (hl : s.maxTokenSize ≤ s.pending.length) :
    Scans s [] { s with err := some .errTooLong } :=
  Scans_stop (Scan_tooLong s hn hl)

/-- Every stream is a list of newline-free lines, each with its newline, followed by a
newline-free remainder; these are the pieces `splitOn` returns. -/
theorem splitOn_unlines (data : List Char) :
    ∃ ls last, data = unlines ls ++ last ∧ (∀ l ∈ ls, '\n' ∉ l) ∧ '\n' ∉ last
      ∧ data.splitOn '\n' = ls ++ [last] := by
  induction data with
  | nil => exact ⟨[], [], by simp [unlines], by simp, by simp, by simp [List.splitOn]⟩
  | cons x xs ih =>
    obtain ⟨ls, last, h1, h2, h3, h4⟩ := ih
    have h4' : List.splitOnP (fun c => c == '\n') xs = ls ++ [last] := h4
    by_cases hx : x = '\n'
    · refine ⟨[] :: ls, last, by simp [unlines, hx, h1], ?_, h3, ?_⟩
      · intro l hl
        rcases List.mem_cons.mp hl with rfl | hl
        · simp
        · exact h2 l hl
      · show List.splitOnP (fun c => c == '\n') (x :: xs) = _
        rw [List.splitOnP_cons, h4']
        simp [hx]
    · cases ls with
      | nil =>
        refine ⟨[], x :: last, by simpa [unlines] using h1, by simp, ?_, ?_⟩
        · simp only [List.mem_cons, not_or]
          exact ⟨fun e => hx e.symm, h3⟩
        · show List.splitOnP (fun c => c == '\n') (x :: xs) = _
          rw [List.splitOnP_cons, h4']
          simp [hx]
      | cons l ls =>
        refine ⟨(x :: l) :: ls, last, by simp [unlines, h1], ?_, h3, ?_⟩
        · intro l' hl'
          rcases List.mem_cons.mp hl' with rfl | hl'
          · simp only [List.mem_cons, not_or]
            exact ⟨fun e => hx e.symm, h2 l (by simp)⟩
          · exact h2 l' (by simp [hl'])
        · show List.splitOnP (fun c => c == '\n') (x :: xs) = _
          rw [List.splitOnP_cons, h4']
          simp [hx]

theorem stripCR_eq_dropCR (line : List Char) : stripCR line = dropCR line := by
  rcases List.eq_nil_or_concat line with rfl | ⟨l, a, rfl⟩
  · rfl
  · have hr : (l ++ [a]).reverse = a :: l.reverse := by simp
    have hg : (l ++ [a]).getLast? = some a := by simp
    unfold stripCR dropCR
    simp only [List.concat_eq_append]
    rw [hr, hg]
    by_cases ha : a = '\r'
    · subst ha; simp
    · rw [if_neg (by simpa using ha)]
      split
      · rename_i rest h
        simp only [List.cons.injEq] at h
        exact absurd h.1 ha
      · rfl

theorem Scans_data (ls : List (List Char)) (last : List Char) (e : ReadEnd)
    (hls : ∀ l ∈ ls, '\n' ∉ l ∧ l.length < MaxScanTokenSize) (hn : '\n' ∉ last)
    (hl : last.length < MaxScanTokenSize) :
    Scans (NewScanner ⟨unlines ls ++ last, e⟩)
      (ls.map dropCR ++ if last = [] then [] else [dropCR last])
      { pending := [], ending := e, maxTokenSize := MaxScanTokenSize, err := endError e } := by
  have h := Scans_last ⟨last, e, MaxScanTokenSize, none⟩ hn hl
  exact Scans_unlines ls last (NewScanner ⟨unlines ls ++ last, e⟩) _ _ hls h

theorem Scans_oversize (ls : List (List Char)) (long : List Char) (e : ReadEnd)
    (hls : ∀ l ∈ ls, '\n' ∉ l ∧ l.length < MaxScanTokenSize)
    (hn : '\n' ∉ long.take MaxScanTokenSize) (hl : MaxScanTokenSize ≤ long.length) :
    Scans (NewScanner ⟨unlines ls ++ long, e⟩) (ls.map dropCR ++ [])
      { pending := long, ending := e, maxTokenSize := MaxScanTokenSize,
        err := some .errTooLong } := by
  have h := Scans_tooLong ⟨long, e, MaxScanTokenSize, none⟩ hn hl
  exact Scans_unlines ls long (NewScanner ⟨unlines ls ++ long, e⟩) _ _ hls h

theorem tallyLoop_of_Scans (r : Reader) (lines : List (List Char)) (s : Scanner) (c : Counts)
    (h : Scans (NewScanner r) lines s) :
    tallyLoop (r.data.length + 1) (NewScanner r) c =
      some (lines.foldl (fun c token => tallyLine c (Text token)) c, s) := by
  rw [tallyLoop_eq, Scans_scanAll_eq h _ (by simp [NewScanner])]
  rfl

theorem analyzeLog_of_Scans (cfg : Config) (env : Env) (r : Reader) (w : World)
    (lines : List (List Char)) (s : Scanner) (h : Scans (NewScanner r) lines s) :
    analyzeLog cfg env r w =
      some (report cfg env (lines.foldl (fun c token => tallyLine c (Text token)) ⟨0, 0, 0⟩) w) := by
  rw [analyzeLog_eq, tallyLoop_of_Scans r lines s _ h]
  rfl

/-- After complete lines that fit, a line that does not fit ends the loop: the run is that of
the complete lines alone, and the scanner is left with `ErrTooLong`. -/
theorem analyzeLog_oversize (cfg : Config) (env : Env) (pre long : List Char) (e : ReadEnd)
    (w : World) (hpre : (pre.splitOn '\n').getLast? = some [])
    (hfit : ∀ seg ∈ pre.splitOn '\n', seg.length < MaxScanTokenSize)
    (hlong : MaxScanTokenSize ≤ long.length) (hnl : '\n' ∉ long.take MaxScanTokenSize) :
    analyzeLog cfg env ⟨pre ++ long, e⟩ w = analyzeLog cfg env ⟨pre, .eof⟩ w
    ∧ ∃ c s, tallyLoop ((pre ++ long).length + 1) (NewScanner ⟨pre ++ long, e⟩) ⟨0, 0, 0⟩
          = some (c, s)
        ∧ s.err = some .errTooLong
        ∧ analyzeLog cfg env ⟨pre ++ long, e⟩ w = some (report cfg env c w) := by
  obtain ⟨ls, last, h1, h2, h3, h4⟩ := splitOn_unlines pre
  rw [h4] at hpre hfit
  have hlast : last = [] := by simpa using hpre
  subst hlast
  have hls : ∀ l ∈ ls, '\n' ∉ l ∧ l.length < MaxScanTokenSize :=
    fun l hl => ⟨h2 l hl, hfit l (by simp [hl])⟩
  have hA := Scans_oversize ls long e hls hnl hlong
  have hB := Scans_data ls [] .eof hls (by simp) (by simp [MaxScanTokenSize])
  simp only [List.append_nil, if_true] at hA hB h1
  subst h1
  refine ⟨?_, _, _, tallyLoop_of_Scans _ _ _ _ hA, rfl, analyzeLog_of_Scans cfg env _ w _ _ hA⟩
  rw [analyzeLog_of_Scans cfg env _ w _ _ hA, analyzeLog_of_Scans cfg env _ w _ _ hB]

theorem replicate_long (n : Nat) (t : List Char) (hn : MaxScanTokenSize ≤ n) :
    MaxScanTokenSize ≤ (List.replicate n 'x' ++ t).length
    ∧ '\n' ∉ (List.replicate n 'x' ++ t).take MaxScanTokenSize := by
  constructor
  · rw [List.length_append, List.length_replicate]; omega
  · rw [List.take_append_of_le_length (by rw [List.length_replicate]; exact hn)]
    intro hm
    exact absurd (List.eq_of_mem_replicate (List.mem_of_mem_take hm)) (by decide)

/-! ## Terminators and carriage returns -/

theorem unlines_append (a b : List (List Char)) : unlines (a ++ b) = unlines a ++ unlines b := by
  induction a with
  | nil => rfl
  | cons l a ih => simp [unlines, ih]

theorem specLines_eq (ls : List (List Char)) (last : List Char) (data : List Char)
    (h : data.splitOn '\n' = ls ++ [last]) :
    specLines data = ls.map dropCR ++ if last = [] then [] else [dropCR last] := by
  have hf : stripCR = dropCR := funext stripCR_eq_dropCR
  have hg : (ls ++ [last]).getLast? = some last := by simp
  unfold specLines
  simp only [h, hf, hg, Option.some.injEq]
  by_cases h1 : last = []
  · simp [h1]
  · simp [h1]

theorem toCRLF_append (l rest : List Char) (h : '\n' ∉ l) :
    toCRLF (l ++ rest) = l ++ toCRLF rest := by
  induction l with
  | nil => rfl
  | cons a l ih =>
    have ha : a ≠ '\n' := fun e => h (by simp [e])
    have hl : '\n' ∉ l := fun m => h (by simp [m])
    simp [toCRLF, ha, ih hl]

theorem toCRLF_unlines (ls : List (List Char)) (last : List Char) (hls : ∀ l ∈ ls, '\n' ∉ l)
    (hn : '\n' ∉ last) :
    toCRLF (unlines ls ++ last) = unlines (ls.map (fun l => l ++ ['\r'])) ++ last := by
  induction ls with
  | nil =>
    have := toCRLF_append last [] hn
    simpa [unlines, toCRLF] using this
  | cons l ls ih =>
    have h1 := hls l (by simp)
    have h2 := ih (fun x hx => hls x (by simp [hx]))
    simp only [unlines, List.map_cons, List.append_assoc, List.cons_append]
    rw [toCRLF_append l _ h1]
    simp [toCRLF, h2]

theorem dropCR_concat (l : List Char) : dropCR (l ++ ['\r']) = l := by
  simp [dropCR]

/-- Appending a byte that is not the last of `sub` creates no new occurrence of `sub`. -/
theorem infix_concat_iff (sub l : List Char) (r : Char) (hne : sub ≠ [])
    (hlast : sub.getLast? ≠ some r) : sub <:+: l ++ [r] ↔ sub <:+: l := by
  constructor
  · rintro ⟨s, t, hst⟩
    rcases List.eq_nil_or_concat t with rfl | ⟨t', x, rfl⟩
    · exfalso
      apply hlast
      have := congrArg List.getLast? hst
      simpa [List.getLast?_append, hne] using this
    · rw [List.concat_eq_append, ← List.append_assoc] at hst
      exact ⟨s, t', (List.append_inj' hst rfl).1⟩
  · intro h
    exact h.trans (List.prefix_append l [r]).isInfix

theorem containsBytes_dropCR (sub l : List Char) (hne : sub ≠ [])
    (hlast : sub.getLast? ≠ some '\r') : containsBytes sub (dropCR l) = containsBytes sub l := by
  rw [Bool.eq_iff_iff, containsBytes_iff, containsBytes_iff]
  rcases List.eq_nil_or_concat l with rfl | ⟨l', a, rfl⟩
  · rfl
  · rw [List.concat_eq_append]
    by_cases ha : a = '\r'
    · subst ha
      rw [dropCR_concat, infix_concat_iff sub l' '\r' hne hlast]
    · have : dropCR (l' ++ [a]) = l' ++ [a] := by simp [dropCR, ha]
      rw [this]

/-- A trailing carriage return does not change the category of a line. -/
theorem tallyLine_dropCR (c : Counts) (l : List Char) :
    tallyLine c (Text (dropCR l)) = tallyLine c (Text l) := by
  have h1 : Contains (Text (dropCR l)) "ERROR" = Contains (Text l) "ERROR" :=
    containsBytes_dropCR _ l (by decide) (by decide)
  have h2 : Contains (Text (dropCR l)) "WARNING" = Contains (Text l) "WARNING" :=
    containsBytes_dropCR _ l (by decide) (by decide)
  have h3 : Contains (Text (dropCR l)) "INFO" = Contains (Text l) "INFO" :=
    containsBytes_dropCR _ l (by decide) (by decide)
  simp only [tallyLine, h1, h2, h3]

theorem foldl_tallyLine_dropCR (ls : List (List Char)) (c : Counts) :
    (ls.map dropCR).foldl (fun c token => tallyLine c (Text token)) c =
      ls.foldl (fun c token => tallyLine c (Text token)) c := by
  rw [List.foldl_map]
  simp only [tallyLine_dropCR]

/-! ## The claims -/

/-- Claim C1: for every input, the counters `analyzeLog` tallies over the lines the scanner
yields are: errors, the number of lines that contain `ERROR`; warnings, the number of lines that
contain `WARNING` and not `ERROR`; infos, the number of lines that contain `INFO` and neither
`ERROR` nor `WARNING`; and these are the counts `analyzeLog` reports.  To contain is to have the
bytes as a contiguous sublist anywhere in the line, byte for byte.  A line that contains `ERROR`
increments the error counter and no other, every line increments at most one counter, and the
single line `ERROR and WARNING both present` gives errors 1, warnings 0, infos 0. -/
theorem analyzeLog_tally_counts (cfg : Config) (env : Env) (reader : Reader) (w : World) :
    (∃ lines s,
      scanAll (reader.data.length + 1) (NewScanner reader) = some (lines, s) ∧
      tallyLoop (reader.data.length + 1) (NewScanner reader) ⟨0, 0, 0⟩ =
        some ({ errorCount := lines.countP (fun l => decide ("ERROR".data <:+: l))
                warningCount :=
                  lines.countP (fun l => decide ("WARNING".data <:+: l ∧ ¬ "ERROR".data <:+: l))
                infoCount :=
                  lines.countP (fun l => decide ("INFO".data <:+: l ∧ ¬ "ERROR".data <:+: l
                    ∧ ¬ "WARNING".data <:+: l)) }, s) ∧
      analyzeLog cfg env reader w =
        some (
          let e : Int := lines.countP (fun l => decide ("ERROR".data <:+: l))
          let n : Int :=
            lines.countP (fun l => decide ("WARNING".data <:+: l ∧ ¬ "ERROR".data <:+: l))
          let i : Int :=
            lines.countP (fun l => decide ("INFO".data <:+: l ∧ ¬ "ERROR".data <:+: l
              ∧ ¬ "WARNING".data <:+: l))
          if cfg.outputToFile then writeResultsToFile cfg env e n i (analyseResult cfg e n i w)
          else analyseResult cfg e n i w))
    ∧ (∀ (c : Counts) (line : String), "ERROR".data <:+: line.data →
        tallyLine c line = { c with errorCount := c.errorCount + 1 })
    ∧ (∀ (c : Counts) (line : String),
        tallyLine c line = c
        ∨ tallyLine c line = { c with errorCount := c.errorCount + 1 }
        ∨ tallyLine c line = { c with warningCount := c.warningCount + 1 }
        ∨ tallyLine c line = { c with infoCount := c.infoCount + 1 })
    ∧ (tallyLoop ("ERROR and WARNING both present".data.length + 1)
          (NewScanner ⟨"ERROR and WARNING both present".data, .eof⟩) ⟨0, 0, 0⟩).map
        (fun r => r.1) = some ⟨1, 0, 0⟩
    ∧ (analyzeLog ⟨"", "INFO", false, ""⟩ (Env.plain ⟨[], .eof⟩)
          ⟨"ERROR and WARNING both present".data, .eof⟩ (World.init fun _ => none)).map
        (fun w => w.stdout) = some "Analysis Results:\nERROR: 1\nWARNING: 0\nINFO: 0\n"
    ∧ tallyLine ⟨0, 0, 0⟩ "error warning info" = ⟨0, 0, 0⟩
    ∧ tallyLine ⟨0, 0, 0⟩ "xxINFOxx" = ⟨0, 0, 1⟩ := by
  refine ⟨?_, fun c line h => tallyLine_error c line h, ?_, by decide, by decide, by decide,
    by decide⟩
  · obtain ⟨lines, s, h1, h2⟩ := tallyLoop_scanAll reader
    rw [foldl_tallyLine] at h2
    simp only [zero_add] at h2
    refine ⟨lines, s, h1, h2, ?_⟩
    unfold analyzeLog
    rw [h2]
    split_ifs <;> rfl
  · intro c line
    unfold tallyLine
    split_ifs <;> simp

/-- Claim C2: for every tally of non-negative counts `e`, `n`, `i`, `analyseResult` writes the
header and then exactly the label lines the level selects, in the order ERROR, WARNING, INFO,
each as the label, a colon, a blank, the count in decimal and a newline: level `ERROR` gives the
ERROR line; `WARNING` the ERROR and WARNING lines; `INFO` all three; the empty level none.
Nothing else of the world changes. -/
theorem analyseResult_label_lines (p r : String) (o : Bool) (e n i : Nat) (w : World) :
    analyseResult ⟨p, "ERROR", o, r⟩ e n i w =
      { w with stdout := w.stdout ++ "Analysis Results:\n" ++ ("ERROR: " ++ Nat.repr e ++ "\n") }
    ∧ analyseResult ⟨p, "WARNING", o, r⟩ e n i w =
      { w with stdout := w.stdout ++ "Analysis Results:\n" ++
          ("ERROR: " ++ Nat.repr e ++ "\n" ++ ("WARNING: " ++ Nat.repr n ++ "\n")) }
    ∧ analyseResult ⟨p, "INFO", o, r⟩ e n i w =
      { w with stdout := w.stdout ++ "Analysis Results:\n" ++
          ("ERROR: " ++ Nat.repr e ++ "\n" ++ ("WARNING: " ++ Nat.repr n ++ "\n")
            ++ ("INFO: " ++ Nat.repr i ++ "\n")) }
    ∧ analyseResult ⟨p, "", o, r⟩ e n i w =
      { w with stdout := w.stdout ++ "Analysis Results:\n" } := by
  refine ⟨?_, ?_, ?_, ?_⟩ <;>
    simp [analyseResult, Printf, Println, formatInt, String.append_assoc] <;> rfl

/-- Claim C3: for every input stream, the tally loop ends and the three counters it leaves add
up to at most the number of lines the scanner has yielded. -/
theorem tally_sum_le_lines (reader : Reader) :
    ∃ c s lines,
      tallyLoop (reader.data.length + 1) (NewScanner reader) ⟨0, 0, 0⟩ = some (c, s) ∧
      scanAll (reader.data.length + 1) (NewScanner reader) = some (lines, s) ∧
      c.errorCount + c.warningCount + c.infoCount ≤ lines.length := by
  obtain ⟨lines, s, h1, h2⟩ := tallyLoop_scanAll reader
  refine ⟨_, s, lines, h2, h1, ?_⟩
  have := foldl_tallyLine_sum_le lines ⟨0, 0, 0⟩
  simpa using this

/-- Claim C4, as stated, fails: with the level `DEBUG`, standard input `ERROR x` and
`outputToFile` set, the run is not rejected; it prints both progress lines and the header, and
creates an empty `default_report.txt`. -/
theorem config_invalid_counterexample :
    (analyzeCmd ⟨"", "DEBUG", true, ""⟩ (Env.plain ⟨"ERROR x\n".data, .eof⟩)
        (World.init fun _ => none)).map
      (fun w => (w.stdout, w.stderr, w.files "default_report.txt")) =
      some ("Analyzing...\nReading from standard input...\nAnalysis Results:\nResults written to default_report.txt\n",
        "", some "") := by
  decide

/-- Claim C4, amended: for every configuration whose level is not empty and is none of `ERROR`,
`WARNING`, `INFO`, the run is not rejected.  It ends, having written `Analyzing...` to standard
output first; it is the same run as with the empty level; and `analyseResult` writes the header
alone, without label lines. -/
theorem invalid_threshold_runs (cfg : Config) (env : Env) (w : World)
    (_h0 : cfg.logLevel ≠ "") (h1 : cfg.logLevel ≠ "ERROR") (h2 : cfg.logLevel ≠ "WARNING")
    (h3 : cfg.logLevel ≠ "INFO") :
    (∃ w', analyzeCmd cfg env w = some w' ∧
      ∃ out, w'.stdout = w.stdout ++ "Analyzing...\n" ++ out)
    ∧ analyzeCmd cfg env w = analyzeCmd { cfg with logLevel := "" } env w
    ∧ (∀ (e n i : Int) (w₀ : World),
        analyseResult cfg e n i w₀ = { w₀ with stdout := w₀.stdout ++ "Analysis Results:\n" }) := by
  refine ⟨analyzeCmd_total cfg env w, analyzeCmd_other cfg env w h1 h2 h3, ?_⟩
  intro e n i w₀
  rw [analyseResult_other cfg e n i w₀ h1 h2 h3]
  rfl

/-- The amended claim C4 at the level `DEBUG`, reading `ERROR x` from standard input. -/
theorem invalid_threshold_runs_witness :
    (∃ w', analyzeCmd ⟨"", "DEBUG", true, ""⟩ (Env.plain ⟨"ERROR x\n".data, .eof⟩)
        (World.init fun _ => none) = some w' ∧
      ∃ out, w'.stdout = (World.init fun _ => none).stdout ++ "Analyzing...\n" ++ out)
    ∧ analyzeCmd ⟨"", "DEBUG", true, ""⟩ (Env.plain ⟨"ERROR x\n".data, .eof⟩)
        (World.init fun _ => none) =
      analyzeCmd { (⟨"", "DEBUG", true, ""⟩ : Config) with logLevel := "" }
        (Env.plain ⟨"ERROR x\n".data, .eof⟩) (World.init fun _ => none)
    ∧ (∀ (e n i : Int) (w₀ : World),
        analyseResult ⟨"", "DEBUG", true, ""⟩ e n i w₀ =
          { w₀ with stdout := w₀.stdout ++ "Analysis Results:\n" }) :=
  invalid_threshold_runs ⟨"", "DEBUG", true, ""⟩ (Env.plain ⟨"ERROR x\n".data, .eof⟩)
    (World.init fun _ => none) (by decide) (by decide) (by decide) (by decide)

/-- Claim C5, as stated, fails: a reader that delivers `ERROR x`, a newline and `WARNING y` and
then reports an I/O error leaves the error in the scanner, and `analyzeLog` prints the report
with the partial counts and writes the report file. -/
theorem read_failed_counterexample :
    (tallyLoop ("ERROR x\nWARNING y".data.length + 1)
        (NewScanner ⟨"ERROR x\nWARNING y".data, .ioError⟩) ⟨0, 0, 0⟩).map
      (fun r => (r.1, r.2.err)) = some (⟨1, 1, 0⟩, some .readError)
    ∧ (analyzeLog ⟨"app.log", "INFO", true, ""⟩ (Env.plain ⟨[], .eof⟩)
        ⟨"ERROR x\nWARNING y".data, .ioError⟩ (World.init fun _ => none)).map
      (fun w => (w.stdout, w.stderr, w.files "default_report.txt")) =
      some ("Analysis Results:\nERROR: 1\nWARNING: 1\nINFO: 0\nResults written to default_report.txt\n",
        "", some "ERROR: 1\nWARNING: 1\nINFO: 0\n") := by
  constructor <;> decide

/-- Claim C5, amended: for every input stream that reports an I/O error after the bytes it has
delivered, the run does not fail: `analyzeLog` does exactly what it does when the stream ends
there without an error.  The error stays in the scanner, which the program never asks, and the
report, header first, is emitted from the counts of the lines delivered before the error. -/
theorem read_error_ignored (cfg : Config) (env : Env) (data : List Char) (w : World) :
    analyzeLog cfg env ⟨data, .ioError⟩ w = analyzeLog cfg env ⟨data, .eof⟩ w
    ∧ (∃ c s, tallyLoop (data.length + 1) (NewScanner ⟨data, .ioError⟩) ⟨0, 0, 0⟩ = some (c, s)
        ∧ s.err ≠ none
        ∧ analyzeLog cfg env ⟨data, .ioError⟩ w = some (report cfg env c w)
        ∧ ∃ out, (report cfg env c w).stdout = w.stdout ++ "Analysis Results:\n" ++ out) := by
  refine ⟨analyzeLog_ending cfg env data _ _ w, ?_⟩
  obtain ⟨lines, s, h1, h2⟩ := tallyLoop_scanAll ⟨data, .ioError⟩
  refine ⟨_, s, h2, scanAll_err _ _ _ _ h1 rfl, ?_, report_stdout cfg env _ w⟩
  rw [analyzeLog_eq, h2]
  rfl

/-- Claim C6, as stated, fails: on the input `ERROR a`, then a line of 65537 bytes, then
`ERROR b`, the scanner stops with `ErrTooLong` and `analyzeLog` still prints the report, with
the counts of the first line alone. -/
theorem read_too_long_counterexample :
    (analyzeLog ⟨"app.log", "INFO", false, ""⟩ (Env.plain ⟨[], .eof⟩)
        ⟨"ERROR a\n".data ++ (List.replicate 65537 'x' ++ "\nERROR b\n".data), .eof⟩
        (World.init fun _ => none)).map (fun w => (w.stdout, w.stderr)) =
      some ("Analysis Results:\nERROR: 1\nWARNING: 0\nINFO: 0\n", "")
    ∧ ∃ c s, tallyLoop
        (("ERROR a\n".data ++ (List.replicate 65537 'x' ++ "\nERROR b\n".data)).length + 1)
        (NewScanner ⟨"ERROR a\n".data ++ (List.replicate 65537 'x' ++ "\nERROR b\n".data), .eof⟩)
        ⟨0, 0, 0⟩ = some (c, s) ∧ s.err = some .errTooLong := by
  have hl := replicate_long 65537 "\nERROR b\n".data (by decide)
  have h := analyzeLog_oversize ⟨"app.log", "INFO", false, ""⟩ (Env.plain ⟨[], .eof⟩)
    "ERROR a\n".data (List.replicate 65537 'x' ++ "\nERROR b\n".data) .eof
    (World.init fun _ => none) (by decide) (by decide) hl.1 hl.2
  refine ⟨?_, ?_⟩
  · rw [h.1]; decide
  · obtain ⟨c, s, h1, h2, -⟩ := h.2
    exact ⟨c, s, h1, h2⟩

/-- Claim C6, amended: for every input made of complete lines that fit the scanner, `pre`,
followed by a line the scanner cannot admit (`long` starts with `MaxScanTokenSize` or more bytes
without a newline, so in particular every line longer than `MaxScanTokenSize`), the tally
loop stops at that line with `ErrTooLong` in the scanner, which the program never asks: no
error is surfaced, and the report, header first, is emitted from the lines that precede the
oversize line, exactly as for the input `pre` alone. -/
theorem oversize_line_ends_tally (cfg : Config) (env : Env) (pre long : List Char) (e : ReadEnd)
    (w : World) (hpre : (pre.splitOn '\n').getLast? = some [])
    (hfit : ∀ seg ∈ pre.splitOn '\n', seg.length < MaxScanTokenSize)
    (hlong : MaxScanTokenSize ≤ long.length) (hnl : '\n' ∉ long.take MaxScanTokenSize) :
    analyzeLog cfg env ⟨pre ++ long, e⟩ w = analyzeLog cfg env ⟨pre, .eof⟩ w
    ∧ ∃ c s, tallyLoop ((pre ++ long).length + 1) (NewScanner ⟨pre ++ long, e⟩) ⟨0, 0, 0⟩
          = some (c, s)
        ∧ s.err = some .errTooLong
        ∧ analyzeLog cfg env ⟨pre ++ long, e⟩ w = some (report cfg env c w)
        ∧ ∃ out, (report cfg env c w).stdout = w.stdout ++ "Analysis Results:\n" ++ out := by
  obtain ⟨h1, c, s, h2, h3, h4⟩ := analyzeLog_oversize cfg env pre long e w hpre hfit hlong hnl
  exact ⟨h1, c, s, h2, h3, h4, report_stdout cfg env c w⟩

/-- The amended claim C6 on `WARNING a`, then a line of 70000 bytes, then `ERROR b`. -/
theorem oversize_line_ends_tally_witness :
    analyzeLog ⟨"app.log", "INFO", false, ""⟩ (Env.plain ⟨[], .eof⟩)
        ⟨"WARNING a\n".data ++ (List.replicate 70000 'x' ++ "\nERROR b\n".data), .eof⟩
        (World.init fun _ => none) =
      analyzeLog ⟨"app.log", "INFO", false, ""⟩ (Env.plain ⟨[], .eof⟩)
        ⟨"WARNING a\n".data, .eof⟩ (World.init fun _ => none)
    ∧ ∃ c s, tallyLoop
          (("WARNING a\n".data ++ (List.replicate 70000 'x' ++ "\nERROR b\n".data)).length + 1)
          (NewScanner
            ⟨"WARNING a\n".data ++ (List.replicate 70000 'x' ++ "\nERROR b\n".data), .eof⟩)
          ⟨0, 0, 0⟩ = some (c, s)
        ∧ s.err = some .errTooLong
        ∧ analyzeLog ⟨"app.log", "INFO", false, ""⟩ (Env.plain ⟨[], .eof⟩)
            ⟨"WARNING a\n".data ++ (List.replicate 70000 'x' ++ "\nERROR b\n".data), .eof⟩
            (World.init fun _ => none) =
          some (report ⟨"app.log", "INFO", false, ""⟩ (Env.plain ⟨[], .eof⟩) c
            (World.init fun _ => none))
        ∧ ∃ out, (report ⟨"app.log", "INFO", false, ""⟩ (Env.plain ⟨[], .eof⟩) c
            (World.init fun _ => none)).stdout =
          (World.init fun _ => none).stdout ++ "Analysis Results:\n" ++ out :=
  oversize_line_ends_tally ⟨"app.log", "INFO", false, ""⟩ (Env.plain ⟨[], .eof⟩)
    "WARNING a\n".data (List.replicate 70000 'x' ++ "\nERROR b\n".data) .eof
    (World.init fun _ => none) (by decide) (by decide)
    (replicate_long 70000 "\nERROR b\n".data (by decide)).1
    (replicate_long 70000 "\nERROR b\n".data (by decide)).2

/-- Claim C7: for every input, level and report path, when `outputToFile` is set and the report
file can be created, what `analyzeLog` writes to standard output is the header, then the same
label lines as without `outputToFile`, then the one line `Results written to` with the path of
the report file: the console output of the run without `outputToFile`, plus that line. -/
theorem console_with_file_output (cfg : Config) (env : Env) (reader : Reader) (w : World)
    (ho : cfg.outputToFile = true)
    (hc : env.createError
      (if cfg.reportPath = "" then "default_report.txt" else cfg.reportPath) = none) :
    ∃ w₁ w₂ labels,
      analyzeLog { cfg with outputToFile := false } env reader w = some w₁
      ∧ analyzeLog cfg env reader w = some w₂
      ∧ w₁.stdout = w.stdout ++ "Analysis Results:\n" ++ labels
      ∧ w₂.stdout = w.stdout ++ "Analysis Results:\n" ++ labels ++
          ("Results written to "
            ++ (if cfg.reportPath = "" then "default_report.txt" else cfg.reportPath) ++ "\n")
      ∧ w₂.stdout = w₁.stdout ++
          ("Results written to "
            ++ (if cfg.reportPath = "" then "default_report.txt" else cfg.reportPath) ++ "\n") := by
  obtain ⟨c, s, h⟩ := tallyLoop_total reader
  refine ⟨report { cfg with outputToFile := false } env c w, report cfg env c w,
    labelLines cfg.logLevel c.errorCount c.warningCount c.infoCount, ?_, ?_, ?_, ?_, ?_⟩
  · rw [analyzeLog_eq, h]; rfl
  · rw [analyzeLog_eq, h]; rfl
  · simp [report, analyseResult_eq]
  · simp only [report, ho, if_true]
    rw [writeResultsToFile_ok cfg env _ _ _ _ hc, analyseResult_eq]
    simp [defaultReport, String.append_assoc]
  · simp only [report, ho, if_true]
    rw [writeResultsToFile_ok cfg env _ _ _ _ hc, analyseResult_eq]
    simp [defaultReport, analyseResult_eq, String.append_assoc]

/-- Claim C7 on the input `ERROR x`, `INFO y`, level `INFO`, report path `out.txt`. -/
theorem console_with_file_output_witness :
    ∃ w₁ w₂ labels,
      analyzeLog { (⟨"", "INFO", true, "out.txt"⟩ : Config) with outputToFile := false }
        (Env.plain ⟨[], .eof⟩) ⟨"ERROR x\nINFO y\n".data, .eof⟩ (World.init fun _ => none) = some w₁
      ∧ analyzeLog ⟨"", "INFO", true, "out.txt"⟩ (Env.plain ⟨[], .eof⟩)
        ⟨"ERROR x\nINFO y\n".data, .eof⟩ (World.init fun _ => none) = some w₂
      ∧ w₁.stdout = (World.init fun _ => none).stdout ++ "Analysis Results:\n" ++ labels
      ∧ w₂.stdout = (World.init fun _ => none).stdout ++ "Analysis Results:\n" ++ labels ++
          ("Results written to "
            ++ (if (⟨"", "INFO", true, "out.txt"⟩ : Config).reportPath = ""
                then "default_report.txt"
                else (⟨"", "INFO", true, "out.txt"⟩ : Config).reportPath) ++ "\n")
      ∧ w₂.stdout = w₁.stdout ++
          ("Results written to "
            ++ (if (⟨"", "INFO", true, "out.txt"⟩ : Config).reportPath = ""
                then "default_report.txt"
                else (⟨"", "INFO", true, "out.txt"⟩ : Config).reportPath) ++ "\n") :=
  console_with_file_output ⟨"", "INFO", true, "out.txt"⟩ (Env.plain ⟨[], .eof⟩)
    ⟨"ERROR x\nINFO y\n".data, .eof⟩ (World.init fun _ => none) rfl rfl

/-- Claim C8: for every tally and every level, when the report file can be created, its content
after `writeResultsToFile` is exactly the label lines `analyseResult` writes to the console: the
console report is the header line followed by the content of the file, so the file holds no
header and the same counts. -/
theorem file_holds_console_labels (cfg : Config) (env : Env) (e n i : Int) (w₁ w₂ : World)
    (hc : env.createError
      (if cfg.reportPath = "" then "default_report.txt" else cfg.reportPath) = none) :
    ∃ labels,
      (writeResultsToFile cfg env e n i w₂).files
          (if cfg.reportPath = "" then "default_report.txt" else cfg.reportPath) = some labels
      ∧ (analyseResult cfg e n i w₁).stdout = w₁.stdout ++ "Analysis Results:\n" ++ labels := by
  refine ⟨labelLines cfg.logLevel e n i, ?_, ?_⟩
  · rw [writeResultsToFile_ok cfg env _ _ _ _ hc]
    simp [defaultReport]
  · rw [analyseResult_eq]

/-- Claim C8 at the level `WARNING` and the tally 2, 1, 1, over an existing report file. -/
theorem file_holds_console_labels_witness :
    ∃ labels,
      (writeResultsToFile ⟨"", "WARNING", true, ""⟩ (Env.plain ⟨[], .eof⟩) 2 1 1
          (World.init fun _ => some "Analysis Results:\nold")).files
          (if (⟨"", "WARNING", true, ""⟩ : Config).reportPath = "" then "default_report.txt"
            else (⟨"", "WARNING", true, ""⟩ : Config).reportPath) = some labels
      ∧ (analyseResult ⟨"", "WARNING", true, ""⟩ 2 1 1 (World.init fun _ => none)).stdout =
          (World.init fun _ => none).stdout ++ "Analysis Results:\n" ++ labels :=
  file_holds_console_labels ⟨"", "WARNING", true, ""⟩ (Env.plain ⟨[], .eof⟩) 2 1 1
    (World.init fun _ => none) (World.init fun _ => some "Analysis Results:\nold") rfl

/-- Claim C9: the file `writeResultsToFile` writes is `reportPath` when that is not empty and
`default_report.txt` when it is empty.  When that file can be created, `writeResultsToFile`
prints `Results written to` with that path, the file holds the label lines of the console, and
no other file changes; with `reportPath` empty and `outputToFile` set, `analyzeLog` leaves the
label lines in `default_report.txt` and ends its output with
`Results written to default_report.txt`. -/
theorem report_target_path (cfg : Config) (env : Env) (reader : Reader) (e n i : Int) (w : World)
    (hc : env.createError
      (if cfg.reportPath = "" then "default_report.txt" else cfg.reportPath) = none) :
    (writeResultsToFile cfg env e n i w).stdout =
        w.stdout ++ ("Results written to "
          ++ (if cfg.reportPath = "" then "default_report.txt" else cfg.reportPath) ++ "\n")
    ∧ (∃ labels,
        (writeResultsToFile cfg env e n i w).files
            (if cfg.reportPath = "" then "default_report.txt" else cfg.reportPath) = some labels
        ∧ (analyseResult cfg e n i w).stdout = w.stdout ++ "Analysis Results:\n" ++ labels)
    ∧ (∀ p, p ≠ (if cfg.reportPath = "" then "default_report.txt" else cfg.reportPath) →
        (writeResultsToFile cfg env e n i w).files p = w.files p)
    ∧ (cfg.reportPath = "" → cfg.outputToFile = true →
        ∃ w' labels, analyzeLog cfg env reader w = some w'
          ∧ w'.files "default_report.txt" = some labels
          ∧ w'.stdout = w.stdout ++ "Analysis Results:\n" ++ labels
              ++ "Results written to default_report.txt\n") := by
  have hc' : env.createError (if cfg.reportPath = "" then defaultReport else cfg.reportPath)
      = none := hc
  refine ⟨?_, ⟨labelLines cfg.logLevel e n i, ?_, ?_⟩, ?_, ?_⟩
  · rw [writeResultsToFile_ok cfg env _ _ _ _ hc']
    simp [defaultReport, String.append_assoc]
  · rw [writeResultsToFile_ok cfg env _ _ _ _ hc']
    simp [defaultReport]
  · rw [analyseResult_eq]
  · intro p hp
    rw [writeResultsToFile_ok cfg env _ _ _ _ hc']
    simp only [defaultReport]
    rw [if_neg hp]
  · intro hr ho
    obtain ⟨c, s, h⟩ := tallyLoop_total reader
    refine ⟨report cfg env c w, labelLines cfg.logLevel c.errorCount c.warningCount c.infoCount,
      ?_, ?_, ?_⟩
    · rw [analyzeLog_eq, h]; rfl
    · simp only [report, ho, if_true]
      rw [writeResultsToFile_ok cfg env _ _ _ _ hc']
      simp [defaultReport, hr]
    · simp only [report, ho, if_true]
      rw [writeResultsToFile_ok cfg env _ _ _ _ hc', analyseResult_eq]
      simp only [defaultReport, hr, if_true, String.append_assoc]
      rfl

/-- Claim C9 with `reportPath` empty, `outputToFile` set, level `ERROR`, input `ERROR x`. -/
theorem report_target_path_witness :
    ((writeResultsToFile ⟨"", "ERROR", true, ""⟩ (Env.plain ⟨[], .eof⟩) 1 0 0
        (World.init fun _ => none)).stdout = "Results written to default_report.txt\n"
      ∧ (writeResultsToFile ⟨"", "ERROR", true, ""⟩ (Env.plain ⟨[], .eof⟩) 1 0 0
        (World.init fun _ => none)).files "default_report.txt" = some "ERROR: 1\n")
    ∧ ∃ w' labels,
        analyzeLog ⟨"", "ERROR", true, ""⟩ (Env.plain ⟨[], .eof⟩) ⟨"ERROR x\n".data, .eof⟩
          (World.init fun _ => none) = some w'
        ∧ w'.files "default_report.txt" = some labels
        ∧ w'.stdout = (World.init fun _ => none).stdout ++ "Analysis Results:\n" ++ labels
            ++ "Results written to default_report.txt\n" :=
  ⟨⟨by decide, by decide⟩,
    (report_target_path ⟨"", "ERROR", true, ""⟩ (Env.plain ⟨[], .eof⟩) ⟨"ERROR x\n".data, .eof⟩
      1 0 0 (World.init fun _ => none) rfl).2.2.2 rfl rfl⟩

/-- Claim C10: for every input byte stream in which every line fits the scanner (fewer than
`MaxScanTokenSize` bytes between newlines), the lines the tally loop classifies are those of
`specLines`: the stream split on the newline, the terminator dropped, one trailing carriage
return removed, a final unterminated line included when it is not empty; and the scanner ends
without `ErrTooLong`.  Consequently `analyzeLog` does the same whether the lines end in a newline
or in carriage return and newline, and a final line that lacks its terminator is classified as
if it had one: the tokens, and what `analyzeLog` does, are those of the stream with the newline
appended; the tally of `ERROR x` is that of `ERROR x` with a newline. -/
theorem scanner_lines_split (cfg : Config) (env : Env) (data : List Char) (e : ReadEnd) (w : World)
    (h : ∀ seg ∈ data.splitOn '\n', seg.length < MaxScanTokenSize) :
    (∃ s, scanAll (data.length + 1) (NewScanner ⟨data, e⟩) = some (specLines data, s)
        ∧ s.err = endError e)
    ∧ analyzeLog cfg env ⟨data, e⟩ w =
        some (report cfg env
          ((specLines data).foldl (fun c token => tallyLine c (Text token)) ⟨0, 0, 0⟩) w)
    ∧ ((∀ seg ∈ data.splitOn '\n', seg.length + 1 < MaxScanTokenSize) →
        analyzeLog cfg env ⟨toCRLF data, e⟩ w = analyzeLog cfg env ⟨data, e⟩ w)
    ∧ ((data.splitOn '\n').getLast? ≠ some [] →
        (∃ s, scanAll ((data ++ ['\n']).length + 1) (NewScanner ⟨data ++ ['\n'], e⟩)
          = some (specLines data, s))
        ∧ analyzeLog cfg env ⟨data ++ ['\n'], e⟩ w = analyzeLog cfg env ⟨data, e⟩ w)
    ∧ (tallyLoop ("ERROR x".data.length + 1) (NewScanner ⟨"ERROR x".data, .eof⟩) ⟨0, 0, 0⟩).map
          (fun r => r.1) =
        (tallyLoop ("ERROR x\n".data.length + 1) (NewScanner ⟨"ERROR x\n".data, .eof⟩)
          ⟨0, 0, 0⟩).map (fun r => r.1) := by
  obtain ⟨ls, last, h1, h2, h3, h4⟩ := splitOn_unlines data
  have hspec := specLines_eq ls last data h4
  rw [h4] at h
  have hls : ∀ l ∈ ls, '\n' ∉ l ∧ l.length < MaxScanTokenSize :=
    fun l hl => ⟨h2 l hl, h l (by simp [hl])⟩
  have hlast : last.length < MaxScanTokenSize := h last (by simp)
  have hA := Scans_data ls last e hls h3 hlast
  rw [← h1, ← hspec] at hA
  refine ⟨⟨_, Scans_scanAll_eq hA _ (by simp [NewScanner]), rfl⟩,
    analyzeLog_of_Scans cfg env _ w _ _ hA, ?_, ?_, by decide⟩
  · intro hsz
    rw [h4] at hsz
    have hls' : ∀ l ∈ ls.map (fun l => l ++ ['\r']), '\n' ∉ l ∧ l.length < MaxScanTokenSize := by
      intro l hl
      obtain ⟨l₀, hl₀, rfl⟩ := List.mem_map.mp hl
      refine ⟨?_, ?_⟩
      · simp only [List.mem_append, List.mem_singleton, not_or]
        exact ⟨h2 l₀ hl₀, by decide⟩
      · have := hsz l₀ (by simp [hl₀])
        simpa using this
    have hB := Scans_data (ls.map (fun l => l ++ ['\r'])) last e hls' h3 hlast
    rw [← toCRLF_unlines ls last h2 h3, ← h1] at hB
    rw [analyzeLog_of_Scans cfg env _ w _ _ hB, analyzeLog_of_Scans cfg env _ w _ _ hA, hspec]
    simp only [List.foldl_append, foldl_tallyLine_dropCR, List.map_map]
    have hid : (dropCR ∘ fun l => l ++ ['\r']) = id := funext fun l => dropCR_concat l
    rw [hid, List.map_id]
  · intro hne
    rw [h4] at hne
    have hl : last ≠ [] := fun hl => hne (by simp [hl])
    have hls'' : ∀ l ∈ ls ++ [last], '\n' ∉ l ∧ l.length < MaxScanTokenSize := by
      intro l hl'
      rcases List.mem_append.mp hl' with hl' | hl'
      · exact hls l hl'
      · rw [List.mem_singleton.mp hl']; exact ⟨h3, hlast⟩
    have hC := Scans_data (ls ++ [last]) [] e hls'' (by simp) (by simp [MaxScanTokenSize])
    have hd : unlines (ls ++ [last]) ++ [] = data ++ ['\n'] := by
      rw [unlines_append, h1]; simp [unlines]
    have ht : List.map dropCR (ls ++ [last]) ++ (if ([] : List Char) = [] then [] else [dropCR []])
        = specLines data := by
      rw [hspec]; simp [hl]
    rw [hd, ht] at hC
    refine ⟨⟨_, Scans_scanAll_eq hC _ (by simp [NewScanner])⟩, ?_⟩
    rw [analyzeLog_of_Scans cfg env _ w _ _ hC, analyzeLog_of_Scans cfg env _ w _ _ hA]

/-- Claim C10 on the stream `INFO a`, carriage return, newline, `ERROR b`. -/
theorem scanner_lines_split_witness :
    (∃ s, scanAll ("INFO a\r\nERROR b".data.length + 1)
          (NewScanner ⟨"INFO a\r\nERROR b".data, .eof⟩)
        = some (specLines "INFO a\r\nERROR b".data, s) ∧ s.err = endError .eof)
    ∧ analyzeLog ⟨"", "INFO", false, ""⟩ (Env.plain ⟨[], .eof⟩) ⟨"INFO a\r\nERROR b".data, .eof⟩
        (World.init fun _ => none) =
        some (report ⟨"", "INFO", false, ""⟩ (Env.plain ⟨[], .eof⟩)
          ((specLines "INFO a\r\nERROR b".data).foldl
            (fun c token => tallyLine c (Text token)) ⟨0, 0, 0⟩) (World.init fun _ => none))
    ∧ ((∀ seg ∈ "INFO a\r\nERROR b".data.splitOn '\n', seg.length + 1 < MaxScanTokenSize) →
        analyzeLog ⟨"", "INFO", false, ""⟩ (Env.plain ⟨[], .eof⟩)
            ⟨toCRLF "INFO a\r\nERROR b".data, .eof⟩ (World.init fun _ => none) =
          analyzeLog ⟨"", "INFO", false, ""⟩ (Env.plain ⟨[], .eof⟩)
            ⟨"INFO a\r\nERROR b".data, .eof⟩ (World.init fun _ => none))
    ∧ (("INFO a\r\nERROR b".data.splitOn '\n').getLast? ≠ some [] →
        (∃ s, scanAll (("INFO a\r\nERROR b".data ++ ['\n']).length + 1)
            (NewScanner ⟨"INFO a\r\nERROR b".data ++ ['\n'], .eof⟩)
          = some (specLines "INFO a\r\nERROR b".data, s))
        ∧ analyzeLog ⟨"", "INFO", false, ""⟩ (Env.plain ⟨[], .eof⟩)
            ⟨"INFO a\r\nERROR b".data ++ ['\n'], .eof⟩ (World.init fun _ => none) =
          analyzeLog ⟨"", "INFO", false, ""⟩ (Env.plain ⟨[], .eof⟩)
            ⟨"INFO a\r\nERROR b".data, .eof⟩ (World.init fun _ => none))
    ∧ (tallyLoop ("ERROR x".data.length + 1) (NewScanner ⟨"ERROR x".data, .eof⟩) ⟨0, 0, 0⟩).map
          (fun r => r.1) =
        (tallyLoop ("ERROR x\n".data.length + 1) (NewScanner ⟨"ERROR x\n".data, .eof⟩)
          ⟨0, 0, 0⟩).map (fun r => r.1) :=
  scanner_lines_split ⟨"", "INFO", false, ""⟩ (Env.plain ⟨[], .eof⟩) "INFO a\r\nERROR b".data .eof
    (World.init fun _ => none) (by decide)

/-! ## Failures of `os.Open` and `os.Create` -/

/-- What has been printed does not change what `os.Open` finds. -/
theorem osOpen_Println (env : Env) (w : World) (s path : String) :
    osOpen env (Println w s) path = osOpen env w path := rfl

/-- When the log file cannot be opened the run prints the progress line and the error line, both
to standard output, and does nothing else. -/
theorem analyzeCmd_open_error (cfg : Config) (env : Env) (w : World) (err : String)
    (hp : cfg.logFilePath ≠ "") (ho : osOpen env w cfg.logFilePath = .error err) :
    analyzeCmd cfg env w =
      some { w with
        stdout := w.stdout ++ "Analyzing...\n" ++ ("Error opening log file: " ++ err ++ "\n") } := by
  unfold analyzeCmd analyzeFile
  simp only [hp, ne_eq, not_false_eq_true, if_true, osOpen_Println, ho]
  simp [Println, Printf, String.append_assoc]

/-- Nothing the report does touches the standard error. -/
theorem report_stderr (cfg : Config) (env : Env) (c : Counts) (w : World) :
    (report cfg env c w).stderr = w.stderr := by
  unfold report
  simp only
  split_ifs
  · cases h : env.createError (if cfg.reportPath = "" then defaultReport else cfg.reportPath) with
    | none => rw [writeResultsToFile_ok cfg env _ _ _ _ h, analyseResult_eq]
    | some msg => rw [writeResultsToFile_fail cfg env _ _ _ _ msg h, analyseResult_eq]
  · rw [analyseResult_eq]

/-- No run writes to the standard error. -/
theorem analyzeCmd_stderr (cfg : Config) (env : Env) (w : World) :
    ∃ w', analyzeCmd cfg env w = some w' ∧ w'.stderr = w.stderr := by
  unfold analyzeCmd analyzeFile
  simp only
  split_ifs with hp
  · cases ho : osOpen env (Println w "Analyzing...") cfg.logFilePath with
    | error err => exact ⟨_, rfl, rfl⟩
    | ok file =>
      obtain ⟨c, hc⟩ := analyzeLog_total cfg env file (Println w "Analyzing...")
      exact ⟨_, hc, by rw [report_stderr]; rfl⟩
  · obtain ⟨c, hc⟩ := analyzeStdin_total cfg env
      (Println (Println w "Analyzing...") "Reading from standard input...")
    exact ⟨_, hc, by rw [report_stderr]; rfl⟩

/-! ## The whole run: what it prints and which files it leaves -/

/-- The output of `report` is what was there before followed by `reportOutput`. -/
theorem report_stdout_eq (cfg : Config) (env : Env) (c : Counts) (w : World) :
    (report cfg env c w).stdout = w.stdout ++ reportOutput cfg env c := by
  unfold report reportOutput
  simp only
  by_cases ho : cfg.outputToFile = true
  · cases h : env.createError (if cfg.reportPath = "" then defaultReport else cfg.reportPath) with
    | none =>
      rw [if_pos ho, if_pos ho, writeResultsToFile_ok cfg env _ _ _ _ h, analyseResult_eq]
      simp only [String.append_assoc]
    | some msg =>
      rw [if_pos ho, if_pos ho, writeResultsToFile_fail cfg env _ _ _ _ msg h, analyseResult_eq]
      simp only [String.append_assoc]
  · rw [if_neg ho, if_neg ho, analyseResult_eq]
    simp only [String.append_assoc, String.append_empty]

/-- The files `report` leaves: the report file holds the label lines when it is to be written
and can be created, and every other file is as before. -/
theorem report_files_eq (cfg : Config) (env : Env) (c : Counts) (w : World) :
    (report cfg env c w).files =
      if cfg.outputToFile = true ∧
          env.createError (if cfg.reportPath = "" then defaultReport else cfg.reportPath) = none
      then fun p =>
        if p = (if cfg.reportPath = "" then defaultReport else cfg.reportPath)
        then some (labelLines cfg.logLevel c.errorCount c.warningCount c.infoCount)
        else w.files p
      else w.files := by
  unfold report
  simp only
  by_cases ho : cfg.outputToFile = true
  · cases h : env.createError (if cfg.reportPath = "" then defaultReport else cfg.reportPath) with
    | none =>
      rw [if_pos ho, if_pos ⟨ho, rfl⟩, writeResultsToFile_ok cfg env _ _ _ _ h, analyseResult_eq]
    | some msg =>
      rw [if_pos ho, if_neg (by simp), writeResultsToFile_fail cfg env _ _ _ _ msg h,
        analyseResult_eq]
  · rw [if_neg ho, if_neg (fun hh => ho hh.1), analyseResult_eq]

/-- Running `report` a second time leaves the files of the first time. -/
theorem report_files_twice (cfg : Config) (env : Env) (c : Counts) (w : World) :
    (report cfg env c (report cfg env c w)).files = (report cfg env c w).files := by
  rw [report_files_eq cfg env c (report cfg env c w), report_files_eq cfg env c w]
  by_cases hc : cfg.outputToFile = true ∧
      env.createError (if cfg.reportPath = "" then defaultReport else cfg.reportPath) = none
  · simp only [if_pos hc]
    funext p
    by_cases hp : p = (if cfg.reportPath = "" then defaultReport else cfg.reportPath)
    · simp only [if_pos hp]
    · simp only [if_neg hp]
  · simp only [if_neg hc]

/-- What `os.Open` finds at a path depends on the file at that path only. -/
theorem osOpen_congr (env : Env) (w w' : World) (path : String)
    (h : w'.files path = w.files path) : osOpen env w' path = osOpen env w path := by
  unfold osOpen
  rw [h]

/-- The run on standard input, in terms of the tally of the stream. -/
theorem analyzeCmd_stdin (cfg : Config) (env : Env) (w : World) (hp : cfg.logFilePath = "") :
    ∃ c s, tallyLoop (env.stdin.data.length + 1) (NewScanner env.stdin) ⟨0, 0, 0⟩ = some (c, s)
      ∧ analyzeCmd cfg env w =
        some (report cfg env c
          (Println (Println w "Analyzing...") "Reading from standard input...")) := by
  obtain ⟨c, s, h⟩ := tallyLoop_total env.stdin
  refine ⟨c, s, h, ?_⟩
  unfold analyzeCmd
  simp only [hp, ne_eq, not_true_eq_false, if_false]
  rw [analyzeStdin_eq, h]
  rfl

/-- The run on a log file that opens, in terms of the tally of its content. -/
theorem analyzeCmd_file (cfg : Config) (env : Env) (w : World) (file : Reader)
    (hp : cfg.logFilePath ≠ "") (ho : osOpen env w cfg.logFilePath = .ok file) :
    ∃ c s, tallyLoop (file.data.length + 1) (NewScanner file) ⟨0, 0, 0⟩ = some (c, s)
      ∧ analyzeCmd cfg env w = some (report cfg env c (Println w "Analyzing...")) := by
  obtain ⟨c, s, h⟩ := tallyLoop_total file
  refine ⟨c, s, h, ?_⟩
  unfold analyzeCmd analyzeFile
  simp only [hp, ne_eq, not_false_eq_true, if_true, osOpen_Println, ho]
  rw [analyzeLog_eq, h]
  rfl

/-- The log file path after `initConfig`. -/
theorem initConfig_logFilePath (getenv : String → String) (cfg : Config) :
    (initConfig getenv cfg).logFilePath =
      if getenv "LOG_FILE" ≠ "" ∧ cfg.logFilePath = "" then getenv "LOG_FILE"
      else cfg.logFilePath := by
  unfold initConfig
  simp only
  split_ifs <;> rfl

/-- The level after `initConfig`. -/
theorem initConfig_logLevel (getenv : String → String) (cfg : Config) :
    (initConfig getenv cfg).logLevel =
      if getenv "LOG_LEVEL" ≠ "" ∧ cfg.logLevel = "" then getenv "LOG_LEVEL"
      else cfg.logLevel := by
  unfold initConfig
  simp only
  split_ifs <;> rfl

/-- The report path after `initConfig`. -/
theorem initConfig_reportPath (getenv : String → String) (cfg : Config) :
    (initConfig getenv cfg).reportPath =
      if getenv "REPORT_PATH" ≠ "" ∧ cfg.reportPath = "" then getenv "REPORT_PATH"
      else cfg.reportPath := by
  unfold initConfig
  simp only
  split_ifs <;> rfl

/-- The switch `outputToFile` after `initConfig`. -/
theorem initConfig_outputToFile (getenv : String → String) (cfg : Config) :
    (initConfig getenv cfg).outputToFile =
      if getenv "OUTPUT_TO_FILE" ≠ "" ∧ cfg.outputToFile = false then
        (ParseBool (getenv "OUTPUT_TO_FILE")).getD false
      else cfg.outputToFile := by
  unfold initConfig
  simp only
  split_ifs <;> rfl

/-- An empty value is no boolean. -/
theorem ParseBool_empty : (ParseBool "").getD false = false := by
  simp [ParseBool]

/-! ## The claims on failures, the order of the output and the whole process -/

/-- Claim C11: for every configuration with a non-empty log file path that cannot be opened, the
run ends without a report: all it writes is the progress line and the line of the error, so
neither the header nor a label line; the files are as before, also when `outputToFile` is
set. -/
theorem open_failure_no_report (cfg : Config) (env : Env) (w : World) (err : String)
    (hp : cfg.logFilePath ≠ "") (ho : osOpen env w cfg.logFilePath = .error err) :
    ∃ w', analyzeCmd cfg env w = some w'
      ∧ w'.stdout = w.stdout ++ "Analyzing...\n" ++ ("Error opening log file: " ++ err ++ "\n")
      ∧ w'.files = w.files
      ∧ w'.stderr = w.stderr := by
  refine ⟨_, analyzeCmd_open_error cfg env w err hp ho, rfl, rfl, rfl⟩

/-- Claim C11 for a log file that does not exist, with `outputToFile` set. -/
theorem open_failure_no_report_witness :
    ∃ w', analyzeCmd ⟨"missing.log", "INFO", true, "out.txt"⟩ (Env.plain ⟨[], .eof⟩)
        (World.init fun _ => none) = some w'
      ∧ w'.stdout = (World.init fun _ => none).stdout ++ "Analyzing...\n"
          ++ ("Error opening log file: " ++ "open missing.log: no such file or directory" ++ "\n")
      ∧ w'.files = (World.init fun _ => none).files
      ∧ w'.stderr = (World.init fun _ => none).stderr :=
  open_failure_no_report ⟨"missing.log", "INFO", true, "out.txt"⟩ (Env.plain ⟨[], .eof⟩)
    (World.init fun _ => none) "open missing.log: no such file or directory" (by decide) rfl

/-- Claim C12, as stated, fails: when the log file cannot be opened, and when the report file
cannot be created, the line of the error is on standard output, after what was printed before,
and standard error stays empty. -/
theorem errors_on_stderr_counterexample :
    (analyzeCmd ⟨"missing.log", "INFO", false, ""⟩ (Env.plain ⟨[], .eof⟩)
        (World.init fun _ => none)).map (fun w => (w.stdout, w.stderr)) =
      some ("Analyzing...\nError opening log file: open missing.log: no such file or directory\n",
        "")
    ∧ (analyzeLog ⟨"app.log", "ERROR", true, "out.txt"⟩ (Env.denied "out.txt")
        ⟨"ERROR x\n".data, .eof⟩ (World.init fun _ => none)).map (fun w => (w.stdout, w.stderr)) =
      some ("Analysis Results:\nERROR: 1\nError creating report file: permission denied\n", "") := by
  constructor <;> decide

/-- Claim C12, amended: every error the run surfaces is written to standard output, with
`fmt.Println`, and no run writes anything to standard error.  When the log file cannot be
opened, standard output holds the progress line and then the line
`Error opening log file:` with the error; when the report file cannot be created,
`writeResultsToFile` appends the line `Error creating report file:` with the error to standard
output. -/
theorem errors_go_to_stdout (cfg : Config) (env : Env) (w : World) :
    (∃ w', analyzeCmd cfg env w = some w' ∧ w'.stderr = w.stderr)
    ∧ (∀ err, cfg.logFilePath ≠ "" → osOpen env w cfg.logFilePath = .error err →
        ∃ w', analyzeCmd cfg env w = some w'
          ∧ w'.stdout = w.stdout ++ "Analyzing...\n"
              ++ ("Error opening log file: " ++ err ++ "\n")
          ∧ w'.stderr = w.stderr)
    ∧ (∀ (msg : String) (e n i : Int),
        env.createError (if cfg.reportPath = "" then "default_report.txt" else cfg.reportPath)
          = some msg →
        writeResultsToFile cfg env e n i w =
          { w with stdout := w.stdout ++ ("Error creating report file: " ++ msg ++ "\n") }) := by
  refine ⟨analyzeCmd_stderr cfg env w, ?_, ?_⟩
  · intro err hp ho
    exact ⟨_, analyzeCmd_open_error cfg env w err hp ho, rfl, rfl⟩
  · intro msg e n i h
    rw [writeResultsToFile_fail cfg env e n i w msg h]
    simp only [String.append_assoc]

/-- The amended claim C12 where `app.log` can be neither opened nor created, as the log file and
as the report file. -/
theorem errors_go_to_stdout_witness :
    (∃ w', analyzeCmd ⟨"app.log", "INFO", true, "app.log"⟩ (Env.denied "app.log")
        (World.init fun _ => some "ERROR x\n") = some w'
      ∧ w'.stdout = (World.init fun _ => some "ERROR x\n").stdout ++ "Analyzing...\n"
          ++ ("Error opening log file: " ++ "permission denied" ++ "\n")
      ∧ w'.stderr = (World.init fun _ => some "ERROR x\n").stderr)
    ∧ writeResultsToFile ⟨"app.log", "INFO", true, "app.log"⟩ (Env.denied "app.log") 1 0 0
        (World.init fun _ => some "ERROR x\n") =
      { (World.init fun _ => some "ERROR x\n") with
        stdout := (World.init fun _ => some "ERROR x\n").stdout
          ++ ("Error creating report file: " ++ "permission denied" ++ "\n") } :=
  ⟨(errors_go_to_stdout ⟨"app.log", "INFO", true, "app.log"⟩ (Env.denied "app.log")
      (World.init fun _ => some "ERROR x\n")).2.1 "permission denied" (by decide) rfl,
    (errors_go_to_stdout ⟨"app.log", "INFO", true, "app.log"⟩ (Env.denied "app.log")
      (World.init fun _ => some "ERROR x\n")).2.2 "permission denied" 1 0 0 rfl⟩

/-- Claim C13: for every input and level, when `outputToFile` is set and the report file cannot
be created, the console summary is written in full before the failure and is that of the run
without `outputToFile`: standard output is that output followed by the line of the error alone,
so the line `Results written to` is not printed; and no file is written. -/
theorem create_failure_console_intact (cfg : Config) (env : Env) (reader : Reader) (w : World)
    (msg : String) (ho : cfg.outputToFile = true)
    (hc : env.createError
      (if cfg.reportPath = "" then "default_report.txt" else cfg.reportPath) = some msg) :
    ∃ w₁ w₂ labels,
      analyzeLog { cfg with outputToFile := false } env reader w = some w₁
      ∧ analyzeLog cfg env reader w = some w₂
      ∧ w₁.stdout = w.stdout ++ "Analysis Results:\n" ++ labels
      ∧ w₂.stdout = w₁.stdout ++ ("Error creating report file: " ++ msg ++ "\n")
      ∧ w₂.files = w.files
      ∧ w₁.files = w.files := by
  obtain ⟨c, s, h⟩ := tallyLoop_total reader
  refine ⟨report { cfg with outputToFile := false } env c w, report cfg env c w,
    labelLines cfg.logLevel c.errorCount c.warningCount c.infoCount, ?_, ?_, ?_, ?_, ?_, ?_⟩
  · rw [analyzeLog_eq, h]; rfl
  · rw [analyzeLog_eq, h]; rfl
  · simp [report, analyseResult_eq]
  · simp only [report, ho, if_true]
    rw [writeResultsToFile_fail cfg env _ _ _ _ msg hc, analyseResult_eq]
    simp [analyseResult_eq, String.append_assoc]
  · simp only [report, ho, if_true]
    rw [writeResultsToFile_fail cfg env _ _ _ _ msg hc, analyseResult_eq]
  · simp [report, analyseResult_eq]

/-- Claim C13 on the input `ERROR x`, `INFO y`, where `out.txt` cannot be created. -/
theorem create_failure_console_intact_witness :
    ∃ w₁ w₂ labels,
      analyzeLog { (⟨"", "INFO", true, "out.txt"⟩ : Config) with outputToFile := false }
        (Env.denied "out.txt") ⟨"ERROR x\nINFO y\n".data, .eof⟩ (World.init fun _ => none) = some w₁
      ∧ analyzeLog ⟨"", "INFO", true, "out.txt"⟩ (Env.denied "out.txt")
        ⟨"ERROR x\nINFO y\n".data, .eof⟩ (World.init fun _ => none) = some w₂
      ∧ w₁.stdout = (World.init fun _ => none).stdout ++ "Analysis Results:\n" ++ labels
      ∧ w₂.stdout = w₁.stdout ++ ("Error creating report file: " ++ "permission denied" ++ "\n")
      ∧ w₂.files = (World.init fun _ => none).files
      ∧ w₁.files = (World.init fun _ => none).files :=
  create_failure_console_intact ⟨"", "INFO", true, "out.txt"⟩ (Env.denied "out.txt")
    ⟨"ERROR x\nINFO y\n".data, .eof⟩ (World.init fun _ => none) "permission denied" rfl rfl

/-- Claim C15, as stated, fails: with `--log-file` supplied as the empty string and
`--output-to-file=false`, and the variables `LOG_FILE` and `OUTPUT_TO_FILE` set, `initConfig`
takes both values from the environment. -/
theorem flag_precedence_counterexample :
    ((initConfig
        (fun k => if k = "LOG_FILE" then "env.log" else if k = "OUTPUT_TO_FILE" then "true" else "")
        (flagValues ⟨some "", none, some false, none⟩)).logFilePath,
     (initConfig
        (fun k => if k = "LOG_FILE" then "env.log" else if k = "OUTPUT_TO_FILE" then "true" else "")
        (flagValues ⟨some "", none, some false, none⟩)).outputToFile) = ("env.log", true) := by
  decide

/-- Claim C15, amended: `initConfig` does not look at whether a flag was supplied but at the
value the flags have left.  A flag supplied with a non-empty string, or `--output-to-file` as
true, wins over the environment; a setting whose variable holds `""` or `false`, because the
flag was not supplied or was supplied with that value, takes the value of its environment
variable (`OUTPUT_TO_FILE` parsed as a boolean, `false` when it does not parse or is empty),
which is the default when the variable is unset. -/
theorem initConfig_precedence (f : Flags) (getenv : String → String) (v : String) :
    (initConfig getenv (flagValues { f with logFile := some v })).logFilePath =
        (if v = "" then getenv "LOG_FILE" else v)
    ∧ (initConfig getenv (flagValues { f with logFile := none })).logFilePath = getenv "LOG_FILE"
    ∧ (initConfig getenv (flagValues { f with logLevel := some v })).logLevel =
        (if v = "" then getenv "LOG_LEVEL" else v)
    ∧ (initConfig getenv (flagValues { f with logLevel := none })).logLevel = getenv "LOG_LEVEL"
    ∧ (initConfig getenv (flagValues { f with reportFile := some v })).reportPath =
        (if v = "" then getenv "REPORT_PATH" else v)
    ∧ (initConfig getenv (flagValues { f with reportFile := none })).reportPath
        = getenv "REPORT_PATH"
    ∧ (initConfig getenv (flagValues { f with outputToFile := some true })).outputToFile = true
    ∧ (initConfig getenv (flagValues { f with outputToFile := some false })).outputToFile =
        (ParseBool (getenv "OUTPUT_TO_FILE")).getD false
    ∧ (initConfig getenv (flagValues { f with outputToFile := none })).outputToFile =
        (ParseBool (getenv "OUTPUT_TO_FILE")).getD false := by
  refine ⟨?_, ?_, ?_, ?_, ?_, ?_, ?_, ?_, ?_⟩
  · rw [initConfig_logFilePath]
    by_cases hv : v = "" <;> by_cases he : getenv "LOG_FILE" = "" <;> simp [flagValues, hv, he]
  · rw [initConfig_logFilePath]
    by_cases he : getenv "LOG_FILE" = "" <;> simp [flagValues, he]
  · rw [initConfig_logLevel]
    by_cases hv : v = "" <;> by_cases he : getenv "LOG_LEVEL" = "" <;> simp [flagValues, hv, he]
  · rw [initConfig_logLevel]
    by_cases he : getenv "LOG_LEVEL" = "" <;> simp [flagValues, he]
  · rw [initConfig_reportPath]
    by_cases hv : v = "" <;> by_cases he : getenv "REPORT_PATH" = "" <;>
      simp [flagValues, hv, he]
  · rw [initConfig_reportPath]
    by_cases he : getenv "REPORT_PATH" = "" <;> simp [flagValues, he]
  · rw [initConfig_outputToFile]
    simp [flagValues]
  · rw [initConfig_outputToFile]
    by_cases he : getenv "OUTPUT_TO_FILE" = "" <;> simp [flagValues, he, ParseBool_empty]
  · rw [initConfig_outputToFile]
    by_cases he : getenv "OUTPUT_TO_FILE" = "" <;> simp [flagValues, he, ParseBool_empty]

/-- Claim C16: running the analysis twice in sequence on the same input gives the same tally
both times, appends the same bytes to the console both times, and leaves the files after the
second run as they are after the first: the report file is created or truncated, not appended
to.  This holds for `analyzeLog` on every reader, configuration and world, and for the whole run
whenever the first run leaves its input as it was (standard input; or a log file that is not
the report file it writes). -/
theorem analysis_idempotent (cfg : Config) (env : Env) (reader : Reader) (w : World) :
    (∃ c s w₁ w₂ out,
      tallyLoop (reader.data.length + 1) (NewScanner reader) ⟨0, 0, 0⟩ = some (c, s)
      ∧ analyzeLog cfg env reader w = some w₁
      ∧ analyzeLog cfg env reader w₁ = some w₂
      ∧ w₁ = report cfg env c w
      ∧ w₂ = report cfg env c w₁
      ∧ w₁.stdout = w.stdout ++ out
      ∧ w₂.stdout = w₁.stdout ++ out
      ∧ w₂.files = w₁.files)
    ∧ ((cfg.outputToFile = false
          ∨ (if cfg.reportPath = "" then "default_report.txt" else cfg.reportPath)
              ≠ cfg.logFilePath) →
        ∃ w₁ w₂ out,
          analyzeCmd cfg env w = some w₁
          ∧ analyzeCmd cfg env w₁ = some w₂
          ∧ w₁.stdout = w.stdout ++ out
          ∧ w₂.stdout = w₁.stdout ++ out
          ∧ w₂.files = w₁.files) := by
  constructor
  · obtain ⟨c, s, h⟩ := tallyLoop_total reader
    refine ⟨c, s, report cfg env c w, report cfg env c (report cfg env c w),
      reportOutput cfg env c, h, ?_, ?_, rfl, rfl, report_stdout_eq cfg env c w,
      report_stdout_eq cfg env c _, report_files_twice cfg env c w⟩
    · rw [analyzeLog_eq, h]; rfl
    · rw [analyzeLog_eq, h]; rfl
  · intro hsep
    by_cases hp : cfg.logFilePath = ""
    · obtain ⟨c, s, h1, h2⟩ := analyzeCmd_stdin cfg env w hp
      obtain ⟨c', s', h1', h2'⟩ := analyzeCmd_stdin cfg env
        (report cfg env c (Println (Println w "Analyzing...") "Reading from standard input..."))
        hp
      rw [h1] at h1'
      obtain ⟨rfl, -⟩ := Prod.mk.inj (Option.some.inj h1')
      refine ⟨_, _, "Analyzing...\n" ++ ("Reading from standard input...\n"
        ++ reportOutput cfg env c), h2, h2', ?_, ?_, ?_⟩
      · rw [report_stdout_eq]
        simp only [Println_stdout, Println_str, String.append_assoc]
      · rw [report_stdout_eq]
        simp only [Println_stdout, Println_str, String.append_assoc]
      · rw [report_files_eq cfg env c (Println (Println _ _) _), report_files_eq cfg env c]
        by_cases hc : cfg.outputToFile = true ∧
            env.createError (if cfg.reportPath = "" then defaultReport else cfg.reportPath) = none
        · simp only [if_pos hc]
          funext p
          by_cases hq : p = (if cfg.reportPath = "" then defaultReport else cfg.reportPath)
          · simp only [if_pos hq]
          · simp only [if_neg hq]
            simp [Println, Printf, report_files_eq, hc, hq]
        · simp only [if_neg hc]
          simp [Println, Printf, report_files_eq, hc]
    · cases ho : osOpen env w cfg.logFilePath with
      | error err =>
        have h1 := analyzeCmd_open_error cfg env w err hp ho
        have h2 := analyzeCmd_open_error cfg env
          { w with stdout := w.stdout ++ "Analyzing...\n"
            ++ ("Error opening log file: " ++ err ++ "\n") } err hp
          (by rw [← ho]; exact osOpen_congr env w _ _ rfl)
        exact ⟨_, _, "Analyzing...\n" ++ ("Error opening log file: " ++ err ++ "\n"), h1, h2,
          by simp only [String.append_assoc], by simp only [String.append_assoc], rfl⟩
      | ok file =>
        obtain ⟨c, s, h1, h2⟩ := analyzeCmd_file cfg env w file hp ho
        have hsame : (report cfg env c (Println w "Analyzing...")).files cfg.logFilePath
            = w.files cfg.logFilePath := by
          rw [report_files_eq]
          by_cases hc : cfg.outputToFile = true ∧
              env.createError (if cfg.reportPath = "" then defaultReport else cfg.reportPath) = none
          · simp only [if_pos hc]
            have hne : ¬ cfg.logFilePath =
                (if cfg.reportPath = "" then defaultReport else cfg.reportPath) := by
              rcases hsep with hs | hs
              · rw [hc.1] at hs; exact absurd hs (by decide)
              · exact fun e => hs e.symm
            rw [if_neg hne]
            rfl
          · simp only [if_neg hc]
            rfl
        have ho' : osOpen env (report cfg env c (Println w "Analyzing...")) cfg.logFilePath
            = .ok file := by
          rw [osOpen_congr env w _ _ hsame, ho]
        obtain ⟨c', s', h1', h2'⟩ := analyzeCmd_file cfg env
          (report cfg env c (Println w "Analyzing...")) file hp ho'
        rw [h1] at h1'
        obtain ⟨rfl, -⟩ := Prod.mk.inj (Option.some.inj h1')
        refine ⟨_, _, "Analyzing...\n" ++ reportOutput cfg env c, h2, h2', ?_, ?_, ?_⟩
        · rw [report_stdout_eq]
          simp only [Println_stdout, Println_str, String.append_assoc]
        · rw [report_stdout_eq]
          simp only [Println_stdout, Println_str, String.append_assoc]
        · rw [report_files_eq cfg env c (Println _ _), report_files_eq cfg env c]
          by_cases hc : cfg.outputToFile = true ∧
              env.createError (if cfg.reportPath = "" then defaultReport else cfg.reportPath) = none
          · simp only [if_pos hc]
            funext p
            by_cases hq : p = (if cfg.reportPath = "" then defaultReport else cfg.reportPath)
            · simp only [if_pos hq]
            · simp only [if_neg hq]
              simp [Println, Printf, report_files_eq, hc, hq]
          · simp only [if_neg hc]
            simp [Println, Printf, report_files_eq, hc]

/-- Claim C16 on the log file `app.log` with the report written to `default_report.txt`. -/
theorem analysis_idempotent_witness :
    ∃ w₁ w₂ out,
      analyzeCmd ⟨"app.log", "INFO", true, ""⟩ (Env.plain ⟨[], .eof⟩)
        (World.init fun p => if p = "app.log" then some "ERROR x\nINFO y\n" else none) = some w₁
      ∧ analyzeCmd ⟨"app.log", "INFO", true, ""⟩ (Env.plain ⟨[], .eof⟩) w₁ = some w₂
      ∧ w₁.stdout =
          (World.init fun p => if p = "app.log" then some "ERROR x\nINFO y\n" else none).stdout
            ++ out
      ∧ w₂.stdout = w₁.stdout ++ out
      ∧ w₂.files = w₁.files :=
  (analysis_idempotent ⟨"app.log", "INFO", true, ""⟩ (Env.plain ⟨[], .eof⟩) ⟨[], .eof⟩
    (World.init fun p => if p = "app.log" then some "ERROR x\nINFO y\n" else none)).2
    (Or.inr (by decide))

/-- Claim C17, as stated, fails: the process ends with status 0 also when the log file cannot be
opened, when the reader fails after some lines, and with a level that is none of the three. -/
theorem exit_code_counterexample :
    (mainProcess ⟨some "missing.log", some "INFO", none, none⟩ (fun _ => "")
        (Env.plain ⟨[], .eof⟩) (World.init fun _ => none)).map (fun r => (r.1.stdout, r.2)) =
      some ("Analyzing...\nError opening log file: open missing.log: no such file or directory\n",
        0)
    ∧ (mainProcess ⟨none, some "ERROR", none, none⟩ (fun _ => "")
        (Env.plain ⟨"ERROR x\nERR".data, .ioError⟩) (World.init fun _ => none)).map
        (fun r => (r.1.stdout, r.2)) =
      some ("Analyzing...\nReading from standard input...\nAnalysis Results:\nERROR: 1\n", 0)
    ∧ (mainProcess ⟨none, some "DEBUG", none, none⟩ (fun _ => "")
        (Env.plain ⟨"ERROR x\n".data, .eof⟩) (World.init fun _ => none)).map
        (fun r => (r.1.stdout, r.2)) =
      some ("Analyzing...\nReading from standard input...\nAnalysis Results:\n", 0) := by
  refine ⟨?_, ?_, ?_⟩ <;> decide

/-- Claim C17, amended: the process ends with status 0 after every run, the successful ones,
those with the level unset included, and equally those in which the log file cannot be opened,
the reader fails, a line is too long for the scanner or the level is none of the three: the
program has no exit status other than 0. -/
theorem exit_code_always_zero (flags : Flags) (getenv : String → String) (env : Env) (w : World) :
    ∃ w', mainProcess flags getenv env w = some (w', 0)
      ∧ analyzeCmd (initConfig getenv (flagValues flags)) env w = some w' := by
  obtain ⟨w', h, -⟩ := analyzeCmd_total (initConfig getenv (flagValues flags)) env w
  exact ⟨w', by simp [mainProcess, h], h⟩

/-- Claim C18: the two copies of the pipeline agree: for every byte stream and configuration,
`analyzeStdin` with that stream behind standard input does exactly what `analyzeLog` does on a
reader over the same stream: the same loop on the same scanner, hence the same tally, and the
same world afterwards, console output and report file included. -/
theorem stdin_pipeline_agrees (cfg : Config) (env : Env) (r : Reader) (w : World) :
    analyzeStdin cfg { env with stdin := r } w = analyzeLog cfg env r w
    ∧ analyzeStdin cfg env w = analyzeLog cfg env env.stdin w
    ∧ ∃ c, analyzeStdin cfg { env with stdin := r } w = some (report cfg env c w)
        ∧ analyzeLog cfg env r w = some (report cfg env c w) := by
  have h1 : analyzeStdin cfg { env with stdin := r } w = analyzeLog cfg env r w := by
    unfold analyzeStdin analyzeLog
    rfl
  refine ⟨h1, ?_, ?_⟩
  · unfold analyzeStdin analyzeLog
    rfl
  · obtain ⟨c, hc⟩ := analyzeLog_total cfg env r w
    exact ⟨c, by rw [h1, hc], hc⟩

/-- Claim C19: for every level that is not byte for byte `ERROR`, `WARNING` or `INFO`, and every
tally, the console report is the header line alone; and `writeResultsToFile`, when the report
file can be created, creates or truncates it, leaves it empty whatever it held before, touches
no other file and prints `Results written to` with its path. -/
theorem unknown_level_report (cfg : Config) (env : Env) (e n i : Int) (w : World)
    (h1 : cfg.logLevel ≠ "ERROR") (h2 : cfg.logLevel ≠ "WARNING") (h3 : cfg.logLevel ≠ "INFO") :
    analyseResult cfg e n i w = { w with stdout := w.stdout ++ "Analysis Results:\n" }
    ∧ (env.createError (if cfg.reportPath = "" then "default_report.txt" else cfg.reportPath)
          = none →
        writeResultsToFile cfg env e n i w =
          { w with
            stdout := w.stdout ++ ("Results written to "
              ++ (if cfg.reportPath = "" then "default_report.txt" else cfg.reportPath) ++ "\n")
            files := fun p =>
              if p = (if cfg.reportPath = "" then "default_report.txt" else cfg.reportPath)
              then some "" else w.files p }) := by
  constructor
  · rw [analyseResult_other cfg e n i w h1 h2 h3]
    rfl
  · intro hc
    rw [writeResultsToFile_ok cfg env e n i w hc, labelLines_other _ e n i h1 h2 h3]
    simp only [defaultReport, String.append_assoc]

/-- Claim C19 at the level `INFO` followed by a blank, over a report file that holds `old`. -/
theorem unknown_level_report_witness :
    analyseResult ⟨"", "INFO ", true, "out.txt"⟩ 2 1 1 (World.init fun _ => some "old") =
      { (World.init fun _ => some "old") with
        stdout := (World.init fun _ => some "old").stdout ++ "Analysis Results:\n" }
    ∧ writeResultsToFile ⟨"", "INFO ", true, "out.txt"⟩ (Env.plain ⟨[], .eof⟩) 2 1 1
        (World.init fun _ => some "old") =
      { (World.init fun _ => some "old") with
        stdout := (World.init fun _ => some "old").stdout ++ ("Results written to "
          ++ (if (⟨"", "INFO ", true, "out.txt"⟩ : Config).reportPath = ""
              then "default_report.txt"
              else (⟨"", "INFO ", true, "out.txt"⟩ : Config).reportPath) ++ "\n")
        files := fun p =>
          if p = (if (⟨"", "INFO ", true, "out.txt"⟩ : Config).reportPath = ""
              then "default_report.txt"
              else (⟨"", "INFO ", true, "out.txt"⟩ : Config).reportPath)
          then some "" else (World.init fun _ => some "old").files p } :=
  ⟨(unknown_level_report ⟨"", "INFO ", true, "out.txt"⟩ (Env.plain ⟨[], .eof⟩) 2 1 1
      (World.init fun _ => some "old") (by decide) (by decide) (by decide)).1,
    (unknown_level_report ⟨"", "INFO ", true, "out.txt"⟩ (Env.plain ⟨[], .eof⟩) 2 1 1
      (World.init fun _ => some "old") (by decide) (by decide) (by decide)).2 rfl⟩

end LogAnalyzer
